import Mathlib

/-!
# The copy collector of `pkg/collect/copy.go`

A shallow embedding of `Copy`, `copyFiles` and `getCopyErrosFileName`, followed by the
properties of the result bundle that the specification states.

Conventions of the embedding.

* Go strings and byte slices are both finite byte sequences; `bytes.Buffer.String()` and
  `bytes.Buffer.Bytes()` expose the same content.  Both are embedded as `String`.
* A Go map with string keys is an association list with at most one entry per key.  A nil map
  and an empty map behave alike for `len`, `range` and lookup and are both the empty list.
* Calls that leave the package (cluster configuration, the Kubernetes client, the SPDY
  executor, JSON encoding) are fields of an environment `Env`.  Calls made once per pod are
  indexed by the position of the pod in the resolved list, since the cluster may answer two
  calls for the same pod differently.
* An index-out-of-range panic is an explicit outcome.
-/

namespace collect

/-- Byte content (`[]byte`, also the content of a Go `string`). -/
abbrev Bytes := String

deriving instance DecidableEq for Except

/-! ## Go maps with string keys -/

/-- A Go `map[string]V`: an association list. -/
structure GoMap (V : Type) where
  entries : List (String × V)
deriving DecidableEq, Repr

/-- Lookup in an association list: the first entry with the key. -/
def getEntries {V : Type} : List (String × V) → String → Option V
  | [], _ => none
  | (k', v) :: rest, k => if k' = k then some v else getEntries rest k

namespace GoMap

variable {V : Type}

/-- The map `make(map[string]V)`, also the nil map. -/
def empty : GoMap V := ⟨[]⟩

/-- The value `m[k]`, if the key is present. -/
def get? (m : GoMap V) (k : String) : Option V := getEntries m.entries k

/-- Whether `k` is a key of `m`. -/
def contains (m : GoMap V) (k : String) : Bool := (m.get? k).isSome

/-- The assignment `m[k] = v`: any former entry for `k` is replaced. -/
def set (m : GoMap V) (k : String) (v : V) : GoMap V :=
  ⟨(k, v) :: m.entries.filter (fun e => !decide (e.1 = k))⟩

/-- The builtin `len(m)`. -/
def len (m : GoMap V) : Nat := m.entries.length

/-- A map literal `map[string]V{k1: v1, ...}`. -/
def ofList (l : List (String × V)) : GoMap V :=
  l.foldl (fun m e => m.set e.1 e.2) empty

end GoMap

/-! ## Types of the imported packages that the collector uses -/

/-- The fields of `troubleshootv1beta1.Copy` read by the collector. -/
structure CopySpec where
  CollectorName : String
  Selector : List String
  Namespace : String
  ContainerPath : String
  ContainerName : String
deriving DecidableEq, Repr

/-- A `corev1.Container`, reduced to its name. -/
structure Container where
  Name : String
deriving DecidableEq, Repr

/-- A `corev1.Pod`: its identity and `Spec.Containers`. -/
structure Pod where
  Namespace : String
  Name : String
  Containers : List Container
deriving DecidableEq, Repr

/-- A `rest.Config` as returned by `config.GetConfig`. -/
structure RestConfig where
  Host : String
deriving DecidableEq, Repr

/-- A `kubernetes.Clientset` built from a configuration. -/
structure Clientset where
  config : RestConfig
deriving DecidableEq, Repr

/-- The `corev1.PodExecOptions` sent as query parameters of the exec request. -/
structure PodExecOptions where
  Command : List String
  Container : String
  Stdin : Bool
  Stdout : Bool
  Stderr : Bool
  TTY : Bool
deriving DecidableEq, Repr

/-- The REST request `Post().Resource(..).Name(..).Namespace(..).SubResource(..)` with its
versioned parameters. -/
structure ExecRequest where
  client : Clientset
  Resource : String
  Name : String
  Namespace : String
  SubResource : String
  Params : PodExecOptions
deriving DecidableEq, Repr

/-- The `remotecommand.StreamOptions`: for each stream whether a reader or sink is supplied
(`false` is Go's `nil`). -/
structure StreamOptions where
  Stdin : Bool
  Stdout : Bool
  Stderr : Bool
  Tty : Bool
deriving DecidableEq, Repr

/-- An executor returned by `remotecommand.NewSPDYExecutor`. -/
structure Executor where
  config : RestConfig
  method : String
  url : ExecRequest
deriving DecidableEq, Repr

/-- What one call of `exec.Stream` leaves behind: the bytes written to the stdout sink, the
bytes written to the stderr sink, and the error it returns, if any. -/
structure StreamResult where
  stdout : Bytes
  stderr : Bytes
  err : Option String
deriving DecidableEq, Repr

/-- The struct `CopyOutput`. -/
structure CopyOutput where
  Files : GoMap Bytes
  Errors : GoMap Bytes
deriving DecidableEq, Repr

/-- The two call sites of `config.GetConfig`: at the start of `Copy`, and in `copyFiles` for
the pod at position `i` of the resolved list. -/
inductive ConfigCall where
  | atCopy : ConfigCall
  | atCopyFiles (i : Nat) : ConfigCall
deriving DecidableEq, Repr

/-- The collaborators outside `copy.go`.  A Go `error` is embedded as its message.  The
functions `listPodsInSelectors` and `marshalNonNil` belong to the package but not to
`copy.go`; like the library calls they are taken as parameters. -/
structure Env where
  /-- The call `config.GetConfig()` at a call site. -/
  getConfig : ConfigCall → Except String RestConfig
  /-- The call `kubernetes.NewForConfig(cfg)`. -/
  newForConfig : RestConfig → Except String Clientset
  /-- The call `listPodsInSelectors(client, namespace, selector)`: the pods and the selector
  errors, a mapping from selector to message of which `Copy` uses the length and the
  encoding. -/
  listPodsInSelectors : Clientset → String → List String → List Pod × GoMap String
  /-- The call `marshalNonNil(obj)` on a non-empty error payload: its JSON encoding. -/
  marshalNonNil : GoMap String → Except String Bytes
  /-- The call `corev1.AddToScheme(scheme)` in the fetch for pod `i`: its error, if any. -/
  addToScheme : Nat → Option String
  /-- The call `remotecommand.NewSPDYExecutor(cfg, method, url)` in the fetch for pod `i`. -/
  newSPDYExecutor : Nat → RestConfig → String → ExecRequest → Except String Executor
  /-- The call `exec.Stream(options)` in the fetch for pod `i`. -/
  stream : Nat → Executor → StreamOptions → StreamResult
  /-- The call `json.MarshalIndent(copyOutput, "", "  ")`. -/
  marshalIndent : CopyOutput → Except String Bytes

/-- A computation that may panic. -/
inductive Run (α : Type) where
  | panic (msg : String) : Run α
  | value (a : α) : Run α
deriving DecidableEq, Repr

/-- How a call of `Copy` ends: by a panic, by returning a non-nil error (nothing is printed),
or by printing the encoded bundle and returning nil. -/
inductive CopyResult where
  | panicked (msg : String) : CopyResult
  | failed (err : String) : CopyResult
  | done (copyOutput : CopyOutput) (printed : String) : CopyResult
deriving DecidableEq, Repr

/-! ## `getCopyErrosFileName` -/

/-- The function `getCopyErrosFileName` (copy.go, lines 133-139). -/
def getCopyErrosFileName (copyCollector : CopySpec) : String :=
  if copyCollector.CollectorName.utf8ByteSize > 0 then
    copyCollector.CollectorName ++ ".json"
  else
    "errors.json"

/-! ## `copyFiles` -/

/-- The key of a fetched file, `fmt.Sprintf("%s/%s/%s", pod.Namespace, pod.Name,
copyCollector.ContainerPath)` (copy.go, line 129). -/
def filesKey (pod : Pod) (copyCollector : CopySpec) : String :=
  pod.Namespace ++ "/" ++ pod.Name ++ "/" ++ copyCollector.ContainerPath

/-- The key of a fetch error, `fmt.Sprintf("%s/%s/%s-errors.json", pod.Namespace, pod.Name,
copyCollector.ContainerPath)` (copy.go, line 50). -/
def errorsKey (pod : Pod) (copyCollector : CopySpec) : String :=
  pod.Namespace ++ "/" ++ pod.Name ++ "/" ++ copyCollector.ContainerPath ++ "-errors.json"

/-- The container that `copyFiles` targets (copy.go, lines 84-87): `Containers[0]` is read
first, which panics on an empty list, and then the collector's `ContainerName` overrides it
when it is not empty. -/
def effectiveContainer (pod : Pod) (copyCollector : CopySpec) : Run String :=
  match pod.Containers with
  | [] => Run.panic "runtime error: index out of range [0] with length 0"
  | first :: _ =>
    let container := first.Name
    Run.value (if copyCollector.ContainerName ≠ "" then copyCollector.ContainerName
      else container)

/-- The exec request that `copyFiles` builds (copy.go, lines 89-105). -/
def execRequest (client : Clientset) (pod : Pod) (container : String)
    (copyCollector : CopySpec) : ExecRequest :=
  let command := ["cat", copyCollector.ContainerPath]
  { client := client
    Resource := "pods"
    Name := pod.Name
    Namespace := pod.Namespace
    SubResource := "exec"
    Params :=
      { Command := command
        Container := container
        Stdin := true
        Stdout := false
        Stderr := true
        TTY := false } }

/-- The stream options that `copyFiles` passes to `exec.Stream` (copy.go, lines 114-119): no
stdin reader, a stdout sink, a stderr sink. -/
def streamOptions : StreamOptions :=
  { Stdin := false, Stdout := true, Stderr := true, Tty := false }

/-- The function `copyFiles` (copy.go, lines 78-131), called for the pod at position `i`. -/
def copyFiles (env : Env) (i : Nat) (client : Clientset) (pod : Pod)
    (copyCollector : CopySpec) : Run (GoMap Bytes × GoMap String) :=
  match env.getConfig (ConfigCall.atCopyFiles i) with
  | Except.error e => Run.value (GoMap.empty, GoMap.ofList [("error", e)])
  | Except.ok cfg =>
    match effectiveContainer pod copyCollector with
    | Run.panic msg => Run.panic msg
    | Run.value container =>
      match env.addToScheme i with
      | some e => Run.value (GoMap.empty, GoMap.ofList [("error", e)])
      | none =>
        let req := execRequest client pod container copyCollector
        match env.newSPDYExecutor i cfg "POST" req with
        | Except.error e => Run.value (GoMap.empty, GoMap.ofList [("error", e)])
        | Except.ok exec =>
          let r := env.stream i exec streamOptions
          match r.err with
          | some e =>
            Run.value (GoMap.empty,
              GoMap.ofList [("stdout", r.stdout), ("stderr", r.stderr), ("error", e)])
          | none =>
            Run.value (GoMap.ofList [(filesKey pod copyCollector, r.stdout)], GoMap.empty)

/-! ## `Copy` -/

/-- The statement `for k, v := range files { copyOutput.Files[k] = v }` (copy.go,
lines 58-60). -/
def mergeFiles (files : GoMap Bytes) (into : GoMap Bytes) : GoMap Bytes :=
  files.entries.foldl (fun m e => m.set e.1 e.2) into

/-- The loop `for _, pod := range pods` of `Copy` (copy.go, lines 47-61), from position `i`
on.  It ends by a panic of `copyFiles`, by the early `return err`, or with the bundle. -/
def copyLoop (env : Env) (client : Clientset) (copyCollector : CopySpec) :
    Nat → List Pod → CopyOutput → Run (Except String CopyOutput)
  | _, [], copyOutput => Run.value (Except.ok copyOutput)
  | i, pod :: rest, copyOutput =>
    match copyFiles env i client pod copyCollector with
    | Run.panic msg => Run.panic msg
    | Run.value (files, copyErrors) =>
      if copyErrors.len > 0 then
        let key := errorsKey pod copyCollector
        match env.marshalNonNil copyErrors with
        | Except.error err => Run.value (Except.error err)
        | Except.ok b =>
          copyLoop env client copyCollector (i + 1) rest
            { copyOutput with Errors := copyOutput.Errors.set key b }
      else
        copyLoop env client copyCollector (i + 1) rest
          { copyOutput with Files := mergeFiles files copyOutput.Files }

/-- The start of the bundle (copy.go, lines 32-44): both maps empty, then the selector errors,
if there are any, encoded and stored under `getCopyErrosFileName`.  A failed encoding is the
early `return err`. -/
def storeSelectorErrors (env : Env) (copyCollector : CopySpec) (podsErrors : GoMap String) :
    Except String CopyOutput :=
  let copyOutput : CopyOutput := { Files := GoMap.empty, Errors := GoMap.empty }
  if podsErrors.len > 0 then
    match env.marshalNonNil podsErrors with
    | Except.error err => Except.error err
    | Except.ok errorBytes =>
      Except.ok { copyOutput with
        Errors := copyOutput.Errors.set (getCopyErrosFileName copyCollector) errorBytes }
  else
    Except.ok copyOutput

/-- The body of `Copy` between the construction of the client and the encoding of the bundle
(copy.go, lines 32-66): the selector errors, then the loop over the pods.  It ends by a
panic, by an early `return err`, or with the bundle to encode. -/
def collectOutput (env : Env) (client : Clientset) (copyCollector : CopySpec) :
    Run (Except String CopyOutput) :=
  let listed := env.listPodsInSelectors client copyCollector.Namespace copyCollector.Selector
  let pods := listed.1
  let podsErrors := listed.2
  match storeSelectorErrors env copyCollector podsErrors with
  | Except.error err => Run.value (Except.error err)
  | Except.ok copyOutput =>
    if pods.length > 0 then
      copyLoop env client copyCollector 0 pods copyOutput
    else
      Run.value (Except.ok copyOutput)

/-- The function `Copy` (copy.go, lines 21-76).  The body of `if redact` is empty in the
source, so the flag has no effect. -/
def Copy (env : Env) (copyCollector : CopySpec) (_redact : Bool) : CopyResult :=
  match env.getConfig ConfigCall.atCopy with
  | Except.error err => CopyResult.failed err
  | Except.ok cfg =>
    match env.newForConfig cfg with
    | Except.error err => CopyResult.failed err
    | Except.ok client =>
      match collectOutput env client copyCollector with
      | Run.panic msg => CopyResult.panicked msg
      | Run.value (Except.error err) => CopyResult.failed err
      | Run.value (Except.ok copyOutput) =>
        match env.marshalIndent copyOutput with
        | Except.error err => CopyResult.failed err
        | Except.ok b => CopyResult.done copyOutput (b ++ "\n")

/-! ## Vocabulary of the statements -/

/-- The error map of a failure before the stream is opened (copy.go, lines 81, 94, 109). -/
def connectionPayload (msg : String) : GoMap String := GoMap.ofList [("error", msg)]

/-- The error map of a failure of `exec.Stream` (copy.go, lines 121-125): the output captured
so far and the message. -/
def streamPayload (r : StreamResult) (msg : String) : GoMap String :=
  GoMap.ofList [("stdout", r.stdout), ("stderr", r.stderr), ("error", msg)]

/-- Some JSON encoding that a run of `Copy` needs fails: the encoding of the selector errors,
of the error map of a failed fetch, or of the bundle that the loop leaves. -/
def serializationFails (env : Env) (client : Clientset) (c : CopySpec) : Prop :=
  (0 < (env.listPodsInSelectors client c.Namespace c.Selector).2.len
      ∧ ∃ e, env.marshalNonNil (env.listPodsInSelectors client c.Namespace c.Selector).2
          = Except.error e)
  ∨ (∃ j pod errs e,
      (env.listPodsInSelectors client c.Namespace c.Selector).1[j]? = some pod
      ∧ copyFiles env j client pod c = Run.value (GoMap.empty, errs)
      ∧ 0 < errs.len ∧ env.marshalNonNil errs = Except.error e)
  ∨ (∃ out e, collectOutput env client c = Run.value (Except.ok out)
      ∧ env.marshalIndent out = Except.error e)

/-! ## Example runs -/

/-- A stand-in for the JSON encoding of an error map in the example runs. -/
def renderPayload (m : GoMap String) : Bytes :=
  String.join (m.entries.map (fun e => e.1 ++ "=" ++ e.2 ++ ";"))

/-- A stand-in for the JSON encoding of the bundle in the example runs. -/
def renderOutput (out : CopyOutput) : Bytes :=
  renderPayload out.Files ++ "|" ++ renderPayload out.Errors

/-- The configuration that the example cluster hands out. -/
def exampleConfig : RestConfig := ⟨"https://10.0.0.1:6443"⟩

/-- The client built from `exampleConfig`. -/
def exampleClient : Clientset := ⟨exampleConfig⟩

/-- An example cluster.  The resolver returns `pods` and `podsErrors`; in the fetch for the
pod at position `i`, `config.GetConfig` fails with `configErr i` and the executor cannot be
built with `executorErr i` when these are set, and the stream leaves `streamAt i`.  Every
encoding succeeds. -/
def exampleEnv (pods : List Pod) (podsErrors : GoMap String)
    (configErr executorErr : Nat → Option String) (streamAt : Nat → StreamResult) : Env :=
  { getConfig := fun site =>
      match site with
      | ConfigCall.atCopy => Except.ok exampleConfig
      | ConfigCall.atCopyFiles i =>
        match configErr i with
        | some e => Except.error e
        | none => Except.ok exampleConfig
    newForConfig := fun cfg => Except.ok ⟨cfg⟩
    listPodsInSelectors := fun _ _ _ => (pods, podsErrors)
    marshalNonNil := fun m => Except.ok (renderPayload m)
    addToScheme := fun _ => none
    newSPDYExecutor := fun i cfg method url =>
      match executorErr i with
      | some e => Except.error e
      | none => Except.ok ⟨cfg, method, url⟩
    stream := fun i _ _ => streamAt i
    marshalIndent := fun out => Except.ok (renderOutput out) }

/-- No failure of this kind at any position. -/
def noErr : Nat → Option String := fun _ => none

/-- A pod with one container. -/
def web : Pod := ⟨"default", "web", [⟨"nginx"⟩]⟩

/-- A second pod with one container. -/
def db : Pod := ⟨"default", "db", [⟨"postgres"⟩]⟩

/-- A pod value whose container list is empty. -/
def bare : Pod := ⟨"default", "bare", []⟩

/-- A request for `/etc/hosts` without collector name and without container name. -/
def hostsRequest : CopySpec :=
  { CollectorName := "", Selector := ["app=web"], Namespace := "default",
    ContainerPath := "/etc/hosts", ContainerName := "" }

/-- The same request with the container named. -/
def namedContainerRequest : CopySpec := { hostsRequest with ContainerName := "nginx" }

/-- The same request under a collector name that is the error key of `web`, less `.json`. -/
def clashingRequest : CopySpec :=
  { hostsRequest with CollectorName := "default/web//etc/hosts-errors" }

/-- Selector errors of a run in which one selector was rejected. -/
def selectorErrors : GoMap String := GoMap.ofList [("app=db", "unable to parse selector")]

/-- A stream that delivers the file. -/
def delivered (content : Bytes) : StreamResult := ⟨content, "", none⟩

/-- A stream that breaks after some output. -/
def broken : StreamResult :=
  ⟨"127.0.0.1 loc", "cat: read error", some "command terminated with exit code 1"⟩

/-- Two entries for `web`; the file changes between the two fetches. -/
def envRewritten : Env :=
  exampleEnv [web, web] GoMap.empty noErr noErr
    (fun i => if i = 0 then delivered "v1" else delivered "v2")

/-- Two entries for `web`; the first fetch succeeds and the second breaks. -/
def envFlaky : Env :=
  exampleEnv [web, web] GoMap.empty noErr noErr
    (fun i => if i = 0 then delivered "v1" else broken)

/-- Two entries for `web`; the first fetch cannot connect and the second breaks. -/
def envRetried : Env :=
  exampleEnv [web, web] GoMap.empty noErr
    (fun i => if i = 0 then some "dial tcp: connection refused" else none)
    (fun _ => broken)

/-- One rejected selector and `web`, whose fetch succeeds. -/
def envSelectorAndFile : Env :=
  exampleEnv [web] selectorErrors noErr noErr (fun _ => delivered "v1")

/-- One rejected selector and `web`, whose fetch breaks. -/
def envSelectorAndError : Env :=
  exampleEnv [web] selectorErrors noErr noErr (fun _ => broken)

/-- One rejected selector, then `web`, whose fetch breaks, and `db`, whose fetch succeeds. -/
def envMixed : Env :=
  exampleEnv [web, db] selectorErrors noErr noErr
    (fun i => if i = 0 then broken else delivered "v1")

/-- The pods `web` and `db`; `config.GetConfig` fails in the fetch for `web`. -/
def envConfigLost : Env :=
  exampleEnv [web, db] GoMap.empty
    (fun i => if i = 0 then some "invalid configuration: no configuration has been provided"
      else none)
    noErr (fun _ => delivered "v1")

/-- The pod `web` alone; `config.GetConfig` fails in its fetch. -/
def envConfigLostSingle : Env :=
  exampleEnv [web] GoMap.empty (fun _ => some "unable to load in-cluster configuration")
    noErr (fun _ => delivered "v1")

/-- The pod value `bare` alone. -/
def envBare : Env :=
  exampleEnv [bare] GoMap.empty noErr noErr (fun _ => delivered "v1")

/-- An environment like `envBare` for `web`, whose executor refuses every request and
reports the stream flags that the request carries. -/
def envProbe : Env :=
  { envBare with
    listPodsInSelectors := fun _ _ _ => ([web], GoMap.empty)
    newSPDYExecutor := fun _ _ _ url =>
      Except.error
        ((if url.Params.Stdin then "stdin=true" else "stdin=false") ++ " "
          ++ (if url.Params.Stdout then "stdout=true" else "stdout=false") ++ " "
          ++ (if url.Params.Stderr then "stderr=true" else "stderr=false")) }

/-- An environment in which the configuration lookup at the start of `Copy` fails. -/
def envNoConfig : Env :=
  { envBare with
    getConfig := fun _ => Except.error "could not locate a kubeconfig" }

/-- An environment in which no client can be built from the configuration. -/
def envNoClient : Env :=
  { envBare with
    newForConfig := fun _ => Except.error "host must be a URL or a host:port pair" }

/-- The pod `web` alone; the executor cannot be built and the error has an empty message. -/
def envSilent : Env :=
  exampleEnv [web] GoMap.empty noErr (fun _ => some "") (fun _ => delivered "v1")

/-- Two entries for `web`; `config.GetConfig` fails in the first fetch and the stream breaks
in the second. -/
def envConfigThenBroken : Env :=
  exampleEnv [web, web] GoMap.empty
    (fun i => if i = 0 then some "invalid configuration: no configuration has been provided"
      else none)
    noErr (fun _ => broken)

/-! ### The bundles of the example runs -/

/-- The encoded error map of the stream `broken`. -/
def brokenBytes : Bytes :=
  "error=command terminated with exit code 1;stderr=cat: read error;stdout=127.0.0.1 loc;"

/-- The encoded `selectorErrors`. -/
def selectorBytes : Bytes := "app=db=unable to parse selector;"

/-- The bundle of `envRewritten` for `hostsRequest`. -/
def bundleRewritten : CopyOutput :=
  ⟨⟨[("default/web//etc/hosts", "v2")]⟩, ⟨[]⟩⟩

/-- The bundle of `envFlaky` for `hostsRequest`. -/
def bundleFlaky : CopyOutput :=
  ⟨⟨[("default/web//etc/hosts", "v1")]⟩, ⟨[("default/web//etc/hosts-errors.json", brokenBytes)]⟩⟩

/-- The bundle of `envRetried` for `hostsRequest`, and of `envSelectorAndError` for
`clashingRequest`. -/
def bundleBroken : CopyOutput :=
  ⟨⟨[]⟩, ⟨[("default/web//etc/hosts-errors.json", brokenBytes)]⟩⟩

/-- The bundle of `envSelectorAndFile` for `clashingRequest`. -/
def bundleSelectorAndFile : CopyOutput :=
  ⟨⟨[("default/web//etc/hosts", "v1")]⟩,
    ⟨[("default/web//etc/hosts-errors.json", selectorBytes)]⟩⟩

/-- The bundle of `envMixed` for `hostsRequest`. -/
def bundleMixed : CopyOutput :=
  ⟨⟨[("default/db//etc/hosts", "v1")]⟩,
    ⟨[("default/web//etc/hosts-errors.json", brokenBytes), ("errors.json", selectorBytes)]⟩⟩

/-- The bundle of `envConfigLost` for `hostsRequest`. -/
def bundleConfigLost : CopyOutput :=
  ⟨⟨[("default/db//etc/hosts", "v1")]⟩,
    ⟨[("default/web//etc/hosts-errors.json",
      "error=invalid configuration: no configuration has been provided;")]⟩⟩

/-- The bundle of `envConfigLostSingle` for `hostsRequest`. -/
def bundleConfigLostSingle : CopyOutput :=
  ⟨⟨[]⟩, ⟨[("default/web//etc/hosts-errors.json",
    "error=unable to load in-cluster configuration;")]⟩⟩

/-- The bundle of `envSilent` for `hostsRequest`. -/
def bundleSilent : CopyOutput :=
  ⟨⟨[]⟩, ⟨[("default/web//etc/hosts-errors.json", "error=;")]⟩⟩

/-! # Properties -/

set_option maxRecDepth 8000

/-! ## Lemmas on maps -/

theorem getEntries_filter_ne {V : Type} (l : List (String × V)) (k k' : String)
    (h : k' ≠ k) :
    getEntries (l.filter (fun e => !decide (e.1 = k))) k' = getEntries l k' := by
  induction l with
  | nil => rfl
  | cons e rest ih =>
    obtain ⟨a, v⟩ := e
    by_cases hak : a = k
    · subst hak
      have hne : ¬ a = k' := fun h' => h h'.symm
      simp [List.filter_cons, getEntries, hne, ih]
    · by_cases hak' : a = k'
      · subst hak'
        simp [List.filter_cons, getEntries, h]
      · simp [List.filter_cons, getEntries, hak, hak', ih]

theorem GoMap.get?_set_self {V : Type} (m : GoMap V) (k : String) (v : V) :
    (m.set k v).get? k = some v := by
  simp [GoMap.set, GoMap.get?, getEntries]

theorem GoMap.get?_set_ne {V : Type} (m : GoMap V) (k k' : String) (v : V) (h : k' ≠ k) :
    (m.set k v).get? k' = m.get? k' := by
  have hne : ¬ k = k' := fun h' => h h'.symm
  simp [GoMap.set, GoMap.get?, getEntries, hne, getEntries_filter_ne _ _ _ h]

theorem GoMap.get?_empty {V : Type} (k : String) : (GoMap.empty : GoMap V).get? k = none := rfl

theorem GoMap.ofList_singleton {V : Type} (k : String) (v : V) :
    GoMap.ofList [(k, v)] = ⟨[(k, v)]⟩ := rfl

theorem GoMap.len_ofList_singleton {V : Type} (k : String) (v : V) :
    (GoMap.ofList [(k, v)]).len = 1 := rfl

theorem GoMap.len_set_pos {V : Type} (m : GoMap V) (k : String) (v : V) :
    0 < (m.set k v).len := by
  simp [GoMap.set, GoMap.len]

theorem mergeFiles_empty (into : GoMap Bytes) : mergeFiles GoMap.empty into = into := rfl

theorem mergeFiles_singleton (k : String) (b : Bytes) (into : GoMap Bytes) :
    mergeFiles (GoMap.ofList [(k, b)]) into = into.set k b := rfl

theorem errorsKey_eq (pod : Pod) (c : CopySpec) :
    errorsKey pod c = filesKey pod c ++ "-errors.json" := rfl

/-! ## The outcomes of `copyFiles` -/

theorem connectionPayload_len (msg : String) : 0 < (connectionPayload msg).len := by
  simp [connectionPayload, GoMap.ofList, GoMap.len, GoMap.set]

theorem streamPayload_len (r : StreamResult) (msg : String) :
    0 < (streamPayload r msg).len := by
  simp [streamPayload, GoMap.ofList, GoMap.len, GoMap.set]

/-- Every call of `copyFiles` panics, fails with a non-empty error map and no files, or
succeeds with the single file of the pod and no error map. -/
theorem copyFiles_cases (env : Env) (i : Nat) (client : Clientset) (pod : Pod) (c : CopySpec) :
    (∃ msg, copyFiles env i client pod c = Run.panic msg)
    ∨ (∃ errs, copyFiles env i client pod c = Run.value (GoMap.empty, errs) ∧ 0 < errs.len)
    ∨ (∃ b, copyFiles env i client pod c
        = Run.value (GoMap.ofList [(filesKey pod c, b)], GoMap.empty)) := by
  unfold copyFiles
  cases env.getConfig (ConfigCall.atCopyFiles i) with
  | error e => exact Or.inr (Or.inl ⟨_, rfl, connectionPayload_len e⟩)
  | ok cfg =>
    cases effectiveContainer pod c with
    | panic msg => exact Or.inl ⟨msg, rfl⟩
    | value container =>
      cases env.addToScheme i with
      | some e => exact Or.inr (Or.inl ⟨_, rfl, connectionPayload_len e⟩)
      | none =>
        cases hx : env.newSPDYExecutor i cfg "POST" (execRequest client pod container c) with
        | error e => simp only [hx]; exact Or.inr (Or.inl ⟨_, rfl, connectionPayload_len e⟩)
        | ok exec =>
          simp only [hx]
          cases hs : (env.stream i exec streamOptions).err with
          | some e => exact Or.inr (Or.inl ⟨_, rfl, streamPayload_len _ e⟩)
          | none => exact Or.inr (Or.inr ⟨_, rfl⟩)

/-- One iteration of the loop of `Copy` that does not end the run: either the fetch succeeded
and its file was stored, or it failed and its encoded error map was stored. -/
theorem copyLoop_cons_ok (env : Env) (client : Clientset) (c : CopySpec) (i : Nat)
    (pod : Pod) (rest : List Pod) (out out' : CopyOutput)
    (h : copyLoop env client c i (pod :: rest) out = Run.value (Except.ok out')) :
    (∃ b, copyFiles env i client pod c
          = Run.value (GoMap.ofList [(filesKey pod c, b)], GoMap.empty)
        ∧ copyLoop env client c (i + 1) rest
            { out with Files := out.Files.set (filesKey pod c) b } = Run.value (Except.ok out'))
    ∨ (∃ errs bytes, copyFiles env i client pod c = Run.value (GoMap.empty, errs)
        ∧ 0 < errs.len ∧ env.marshalNonNil errs = Except.ok bytes
        ∧ copyLoop env client c (i + 1) rest
            { out with Errors := out.Errors.set (errorsKey pod c) bytes }
            = Run.value (Except.ok out')) := by
  rcases copyFiles_cases env i client pod c with ⟨msg, hp⟩ | ⟨errs, hf, hlen⟩ | ⟨b, hs⟩
  · simp [copyLoop, hp] at h
  · right
    cases hm : env.marshalNonNil errs with
    | error e => simp [copyLoop, hf, hlen, hm] at h
    | ok bytes =>
      refine ⟨errs, bytes, hf, hlen, hm, ?_⟩
      simpa [copyLoop, hf, hlen, hm] using h
  · left
    refine ⟨b, hs, ?_⟩
    have h0 : ¬ 0 < (GoMap.empty : GoMap String).len := by simp [GoMap.empty, GoMap.len]
    simpa [copyLoop, hs, h0, mergeFiles_singleton] using h

theorem GoMap.contains_set_self {V : Type} (m : GoMap V) (k : String) (v : V) :
    (m.set k v).contains k = true := by
  simp [GoMap.contains, GoMap.get?_set_self]

theorem GoMap.contains_set_of_contains {V : Type} (m : GoMap V) (k k' : String) (v : V)
    (h : m.contains k' = true) : (m.set k v).contains k' = true := by
  by_cases hk : k' = k
  · subst hk
    exact GoMap.contains_set_self m k' v
  · simpa [GoMap.contains, GoMap.get?_set_ne m k k' v hk] using h

/-! ## Invariants of the loop of `Copy` -/

section Loop

variable (env : Env) (client : Clientset) (c : CopySpec)

/-- The loop only adds entries: a key of either map stays a key. -/
theorem copyLoop_contains_mono (pods : List Pod) :
    ∀ (i : Nat) (out out' : CopyOutput),
      copyLoop env client c i pods out = Run.value (Except.ok out') →
      ∀ k, (out.Files.contains k = true → out'.Files.contains k = true)
        ∧ (out.Errors.contains k = true → out'.Errors.contains k = true) := by
  induction pods with
  | nil =>
    intro i out out' h k
    simp only [copyLoop, Run.value.injEq, Except.ok.injEq] at h
    subst h
    exact ⟨id, id⟩
  | cons pod rest ih =>
    intro i out out' h k
    rcases copyLoop_cons_ok env client c i pod rest out out' h with
      ⟨b, _, hrest⟩ | ⟨errs, bytes, _, _, _, hrest⟩
    · have := ih (i + 1) _ out' hrest k
      exact ⟨fun hk => this.1 (GoMap.contains_set_of_contains _ _ _ _ hk), this.2⟩
    · have := ih (i + 1) _ out' hrest k
      exact ⟨this.1, fun hk => this.2 (GoMap.contains_set_of_contains _ _ _ _ hk)⟩

/-- A file key that no successful fetch of the loop writes keeps its value. -/
theorem copyLoop_files_frame (k : String) (pods : List Pod) :
    ∀ (i : Nat) (out out' : CopyOutput),
      copyLoop env client c i pods out = Run.value (Except.ok out') →
      (∀ j pod' b, pods[j]? = some pod' → filesKey pod' c = k →
        copyFiles env (i + j) client pod' c
          ≠ Run.value (GoMap.ofList [(filesKey pod' c, b)], GoMap.empty)) →
      out'.Files.get? k = out.Files.get? k := by
  induction pods with
  | nil =>
    intro i out out' h _
    simp only [copyLoop, Run.value.injEq, Except.ok.injEq] at h
    subst h
    rfl
  | cons pod rest ih =>
    intro i out out' h hno
    have hno' : ∀ j pod' b, rest[j]? = some pod' → filesKey pod' c = k →
        copyFiles env (i + 1 + j) client pod' c
          ≠ Run.value (GoMap.ofList [(filesKey pod' c, b)], GoMap.empty) := by
      intro j pod' b hj hk
      have := hno (j + 1) pod' b (by simpa using hj) hk
      rwa [show i + (j + 1) = i + 1 + j by omega] at this
    rcases copyLoop_cons_ok env client c i pod rest out out' h with
      ⟨b, hs, hrest⟩ | ⟨errs, bytes, _, _, _, hrest⟩
    · have hne : k ≠ filesKey pod c := by
        intro hk
        exact hno 0 pod b (by simp) hk.symm (by simpa using hs)
      rw [ih (i + 1) _ out' hrest hno']
      exact GoMap.get?_set_ne _ _ _ _ hne
    · rw [ih (i + 1) _ out' hrest hno']

/-- An error key that no failed fetch of the loop writes keeps its value. -/
theorem copyLoop_errors_frame (k : String) (pods : List Pod) :
    ∀ (i : Nat) (out out' : CopyOutput),
      copyLoop env client c i pods out = Run.value (Except.ok out') →
      (∀ j pod' errs, pods[j]? = some pod' → errorsKey pod' c = k →
        ¬ (copyFiles env (i + j) client pod' c = Run.value (GoMap.empty, errs)
            ∧ 0 < errs.len)) →
      out'.Errors.get? k = out.Errors.get? k := by
  induction pods with
  | nil =>
    intro i out out' h _
    simp only [copyLoop, Run.value.injEq, Except.ok.injEq] at h
    subst h
    rfl
  | cons pod rest ih =>
    intro i out out' h hno
    have hno' : ∀ j pod' errs, rest[j]? = some pod' → errorsKey pod' c = k →
        ¬ (copyFiles env (i + 1 + j) client pod' c = Run.value (GoMap.empty, errs)
            ∧ 0 < errs.len) := by
      intro j pod' errs hj hk
      have := hno (j + 1) pod' errs (by simpa using hj) hk
      rwa [show i + (j + 1) = i + 1 + j by omega] at this
    rcases copyLoop_cons_ok env client c i pod rest out out' h with
      ⟨b, _, hrest⟩ | ⟨errs, bytes, hf, hlen, _, hrest⟩
    · rw [ih (i + 1) _ out' hrest hno']
    · have hne : k ≠ errorsKey pod c := by
        intro hk
        exact hno 0 pod errs (by simp) hk.symm ⟨by simpa using hf, hlen⟩
      rw [ih (i + 1) _ out' hrest hno']
      exact GoMap.get?_set_ne _ _ _ _ hne

/-- The file of a successful fetch that no later successful fetch overwrites is in the
bundle. -/
theorem copyLoop_files_last (pods : List Pod) :
    ∀ (i : Nat) (out out' : CopyOutput) (j : Nat) (pod : Pod) (b : Bytes),
      copyLoop env client c i pods out = Run.value (Except.ok out') →
      pods[j]? = some pod →
      copyFiles env (i + j) client pod c
        = Run.value (GoMap.ofList [(filesKey pod c, b)], GoMap.empty) →
      (∀ j' pod' b', j < j' → pods[j']? = some pod' → filesKey pod' c = filesKey pod c →
        copyFiles env (i + j') client pod' c
          ≠ Run.value (GoMap.ofList [(filesKey pod' c, b')], GoMap.empty)) →
      out'.Files.get? (filesKey pod c) = some b := by
  induction pods with
  | nil => intro i out out' j pod b _ hj; simp at hj
  | cons p rest ih =>
    intro i out out' j pod b h hj hs hlater
    cases j with
    | zero =>
      simp only [List.getElem?_cons_zero, Option.some.injEq] at hj
      subst hj
      have hno' : ∀ j pod' b', rest[j]? = some pod' → filesKey pod' c = filesKey p c →
          copyFiles env (i + 1 + j) client pod' c
            ≠ Run.value (GoMap.ofList [(filesKey pod' c, b')], GoMap.empty) := by
        intro j pod' b' hj hk
        have := hlater (j + 1) pod' b' (by omega) (by simpa using hj) hk
        rwa [show i + (j + 1) = i + 1 + j by omega] at this
      rcases copyLoop_cons_ok env client c i p rest out out' h with
        ⟨b0, hs0, hrest⟩ | ⟨errs, bytes, hf, hlen, _, hrest⟩
      · have hb : b0 = b := by
          have := hs0.symm.trans (by simpa using hs)
          simpa [GoMap.ofList_singleton] using this
        subst hb
        rw [copyLoop_files_frame env client c _ rest (i + 1) _ out' hrest hno']
        exact GoMap.get?_set_self _ _ _
      · exfalso
        have := hf.symm.trans (by simpa using hs)
        simp only [Run.value.injEq, Prod.mk.injEq] at this
        rw [this.2] at hlen
        simp [GoMap.empty, GoMap.len] at hlen
    | succ j =>
      have hj' : rest[j]? = some pod := by simpa using hj
      have hs' : copyFiles env (i + 1 + j) client pod c
          = Run.value (GoMap.ofList [(filesKey pod c, b)], GoMap.empty) := by
        rwa [show i + (j + 1) = i + 1 + j by omega] at hs
      have hlater' : ∀ j' pod' b', j < j' → rest[j']? = some pod' →
          filesKey pod' c = filesKey pod c →
          copyFiles env (i + 1 + j') client pod' c
            ≠ Run.value (GoMap.ofList [(filesKey pod' c, b')], GoMap.empty) := by
        intro j' pod' b' hlt hj'' hk
        have := hlater (j' + 1) pod' b' (by omega) (by simpa using hj'') hk
        rwa [show i + (j' + 1) = i + 1 + j' by omega] at this
      rcases copyLoop_cons_ok env client c i p rest out out' h with
        ⟨b0, _, hrest⟩ | ⟨errs, bytes, _, _, _, hrest⟩
      · exact ih (i + 1) _ out' j pod b hrest hj' hs' hlater'
      · exact ih (i + 1) _ out' j pod b hrest hj' hs' hlater'

/-- The encoded error map of a failed fetch that no later failed fetch overwrites is in the
bundle. -/
theorem copyLoop_errors_last (pods : List Pod) :
    ∀ (i : Nat) (out out' : CopyOutput) (j : Nat) (pod : Pod) (errs : GoMap String),
      copyLoop env client c i pods out = Run.value (Except.ok out') →
      pods[j]? = some pod →
      copyFiles env (i + j) client pod c = Run.value (GoMap.empty, errs) →
      0 < errs.len →
      (∀ j' pod' errs', j < j' → pods[j']? = some pod' →
        errorsKey pod' c = errorsKey pod c →
        ¬ (copyFiles env (i + j') client pod' c = Run.value (GoMap.empty, errs')
            ∧ 0 < errs'.len)) →
      ∃ bytes, env.marshalNonNil errs = Except.ok bytes
        ∧ out'.Errors.get? (errorsKey pod c) = some bytes := by
  induction pods with
  | nil => intro i out out' j pod errs _ hj; simp at hj
  | cons p rest ih =>
    intro i out out' j pod errs h hj hf hlen hlater
    cases j with
    | zero =>
      simp only [List.getElem?_cons_zero, Option.some.injEq] at hj
      subst hj
      have hno' : ∀ j pod' errs', rest[j]? = some pod' → errorsKey pod' c = errorsKey p c →
          ¬ (copyFiles env (i + 1 + j) client pod' c = Run.value (GoMap.empty, errs')
              ∧ 0 < errs'.len) := by
        intro j pod' errs' hj hk
        have := hlater (j + 1) pod' errs' (by omega) (by simpa using hj) hk
        rwa [show i + (j + 1) = i + 1 + j by omega] at this
      rcases copyLoop_cons_ok env client c i p rest out out' h with
        ⟨b0, hs0, hrest⟩ | ⟨errs0, bytes, hf0, _, hm, hrest⟩
      · exfalso
        have := hs0.symm.trans (by simpa using hf)
        simp only [Run.value.injEq, Prod.mk.injEq] at this
        rw [← this.2] at hlen
        simp [GoMap.empty, GoMap.len] at hlen
      · have he : errs0 = errs := by
          have := hf0.symm.trans (by simpa using hf)
          simpa using this
        subst he
        refine ⟨bytes, hm, ?_⟩
        rw [copyLoop_errors_frame env client c _ rest (i + 1) _ out' hrest hno']
        exact GoMap.get?_set_self _ _ _
    | succ j =>
      have hj' : rest[j]? = some pod := by simpa using hj
      have hf' : copyFiles env (i + 1 + j) client pod c = Run.value (GoMap.empty, errs) := by
        rwa [show i + (j + 1) = i + 1 + j by omega] at hf
      have hlater' : ∀ j' pod' errs', j < j' → rest[j']? = some pod' →
          errorsKey pod' c = errorsKey pod c →
          ¬ (copyFiles env (i + 1 + j') client pod' c = Run.value (GoMap.empty, errs')
              ∧ 0 < errs'.len) := by
        intro j' pod' errs' hlt hj'' hk
        have := hlater (j' + 1) pod' errs' (by omega) (by simpa using hj'') hk
        rwa [show i + (j' + 1) = i + 1 + j' by omega] at this
      rcases copyLoop_cons_ok env client c i p rest out out' h with
        ⟨b0, _, hrest⟩ | ⟨errs0, bytes, _, _, _, hrest⟩
      · exact ih (i + 1) _ out' j pod errs hrest hj' hf' hlen hlater'
      · exact ih (i + 1) _ out' j pod errs hrest hj' hf' hlen hlater'

end Loop

section Loop

variable (env : Env) (client : Clientset) (c : CopySpec)

/-- Every fetch of a loop that ends with a bundle left its entry: the file key of a
successful fetch is in `Files`, the error key of a failed one is in `Errors`. -/
theorem copyLoop_entries (pods : List Pod) :
    ∀ (i : Nat) (out out' : CopyOutput) (j : Nat) (pod : Pod),
      copyLoop env client c i pods out = Run.value (Except.ok out') →
      pods[j]? = some pod →
      ((∃ b, copyFiles env (i + j) client pod c
            = Run.value (GoMap.ofList [(filesKey pod c, b)], GoMap.empty))
          ∧ out'.Files.contains (filesKey pod c) = true)
      ∨ ((∃ errs, copyFiles env (i + j) client pod c = Run.value (GoMap.empty, errs)
            ∧ 0 < errs.len)
          ∧ out'.Errors.contains (errorsKey pod c) = true) := by
  induction pods with
  | nil => intro i out out' j pod _ hj; simp at hj
  | cons p rest ih =>
    intro i out out' j pod h hj
    cases j with
    | zero =>
      simp only [List.getElem?_cons_zero, Option.some.injEq] at hj
      subst hj
      rcases copyLoop_cons_ok env client c i p rest out out' h with
        ⟨b, hs, hrest⟩ | ⟨errs, bytes, hf, hlen, _, hrest⟩
      · left
        exact ⟨⟨b, by simpa using hs⟩,
          (copyLoop_contains_mono env client c rest (i + 1) _ out' hrest _).1
            (GoMap.contains_set_self _ _ _)⟩
      · right
        exact ⟨⟨errs, by simpa using hf, hlen⟩,
          (copyLoop_contains_mono env client c rest (i + 1) _ out' hrest _).2
            (GoMap.contains_set_self _ _ _)⟩
    | succ j =>
      have hj' : rest[j]? = some pod := by simpa using hj
      rw [show i + (j + 1) = i + 1 + j by omega]
      rcases copyLoop_cons_ok env client c i p rest out out' h with
        ⟨b, _, hrest⟩ | ⟨errs, bytes, _, _, _, hrest⟩
      · exact ih (i + 1) _ out' j pod hrest hj'
      · exact ih (i + 1) _ out' j pod hrest hj'

/-- A file key of the bundle was there before the loop or was written by a successful
fetch of the loop. -/
theorem copyLoop_files_origin (k : String) (pods : List Pod) :
    ∀ (i : Nat) (out out' : CopyOutput),
      copyLoop env client c i pods out = Run.value (Except.ok out') →
      out'.Files.contains k = true →
      out.Files.contains k = true
      ∨ ∃ j pod b, pods[j]? = some pod ∧ filesKey pod c = k
          ∧ copyFiles env (i + j) client pod c
              = Run.value (GoMap.ofList [(filesKey pod c, b)], GoMap.empty) := by
  induction pods with
  | nil =>
    intro i out out' h hk
    simp only [copyLoop, Run.value.injEq, Except.ok.injEq] at h
    subst h
    exact Or.inl hk
  | cons p rest ih =>
    intro i out out' h hk
    have shift : ∀ out1, copyLoop env client c (i + 1) rest out1 = Run.value (Except.ok out') →
        out1.Files.contains k = true
        ∨ ∃ j pod b, (p :: rest)[j]? = some pod ∧ filesKey pod c = k
            ∧ copyFiles env (i + j) client pod c
                = Run.value (GoMap.ofList [(filesKey pod c, b)], GoMap.empty) := by
      intro out1 hrest
      rcases ih (i + 1) out1 out' hrest hk with h1 | ⟨j, pod, b, hj, hkey, hs⟩
      · exact Or.inl h1
      · refine Or.inr ⟨j + 1, pod, b, by simpa using hj, hkey, ?_⟩
        rwa [show i + (j + 1) = i + 1 + j by omega]
    rcases copyLoop_cons_ok env client c i p rest out out' h with
      ⟨b, hs, hrest⟩ | ⟨errs, bytes, _, _, _, hrest⟩
    · rcases shift _ hrest with h1 | h2
      · by_cases hkey : k = filesKey p c
        · exact Or.inr ⟨0, p, b, by simp, hkey.symm, by simpa using hs⟩
        · left
          simpa [GoMap.contains, GoMap.get?_set_ne _ _ _ _ hkey] using h1
      · exact Or.inr h2
    · have h3 := shift _ hrest
      exact h3

/-- An error key of the bundle was there before the loop or was written by a failed fetch
of the loop. -/
theorem copyLoop_errors_origin (k : String) (pods : List Pod) :
    ∀ (i : Nat) (out out' : CopyOutput),
      copyLoop env client c i pods out = Run.value (Except.ok out') →
      out'.Errors.contains k = true →
      out.Errors.contains k = true
      ∨ ∃ j pod errs, pods[j]? = some pod ∧ errorsKey pod c = k
          ∧ copyFiles env (i + j) client pod c = Run.value (GoMap.empty, errs)
          ∧ 0 < errs.len := by
  induction pods with
  | nil =>
    intro i out out' h hk
    simp only [copyLoop, Run.value.injEq, Except.ok.injEq] at h
    subst h
    exact Or.inl hk
  | cons p rest ih =>
    intro i out out' h hk
    have shift : ∀ out1, copyLoop env client c (i + 1) rest out1 = Run.value (Except.ok out') →
        out1.Errors.contains k = true
        ∨ ∃ j pod errs, (p :: rest)[j]? = some pod ∧ errorsKey pod c = k
            ∧ copyFiles env (i + j) client pod c = Run.value (GoMap.empty, errs)
            ∧ 0 < errs.len := by
      intro out1 hrest
      rcases ih (i + 1) out1 out' hrest hk with h1 | ⟨j, pod, errs, hj, hkey, hf, hlen⟩
      · exact Or.inl h1
      · refine Or.inr ⟨j + 1, pod, errs, by simpa using hj, hkey, ?_, hlen⟩
        rwa [show i + (j + 1) = i + 1 + j by omega]
    rcases copyLoop_cons_ok env client c i p rest out out' h with
      ⟨b, _, hrest⟩ | ⟨errs, bytes, hf, hlen, _, hrest⟩
    · have h3 := shift _ hrest
      exact h3
    · rcases shift _ hrest with h1 | h2
      · by_cases hkey : k = errorsKey p c
        · exact Or.inr ⟨0, p, errs, by simp, hkey.symm, by simpa using hf, hlen⟩
        · left
          simpa [GoMap.contains, GoMap.get?_set_ne _ _ _ _ hkey] using h1
      · exact Or.inr h2

end Loop

/-! ## From `Copy` to its loop -/

theorem collectOutput_eq (env : Env) (client : Clientset) (c : CopySpec) :
    collectOutput env client c
      = match storeSelectorErrors env c
            (env.listPodsInSelectors client c.Namespace c.Selector).2 with
        | Except.error err => Run.value (Except.error err)
        | Except.ok out0 =>
          copyLoop env client c 0 (env.listPodsInSelectors client c.Namespace c.Selector).1
            out0 := by
  unfold collectOutput
  simp only []
  cases (env.listPodsInSelectors client c.Namespace c.Selector).1 with
  | nil => cases storeSelectorErrors env c _ <;> simp [copyLoop]
  | cons p rest => simp

/-- The bundle before the loop has no files, and its only possible error entry is the
encoding of the selector errors under `getCopyErrosFileName`. -/
theorem storeSelectorErrors_ok (env : Env) (c : CopySpec) (podsErrors : GoMap String)
    (out0 : CopyOutput) (h : storeSelectorErrors env c podsErrors = Except.ok out0) :
    (∀ k, out0.Files.get? k = none)
    ∧ (∀ k, out0.Errors.contains k = true →
        0 < podsErrors.len ∧ k = getCopyErrosFileName c)
    ∧ (0 < podsErrors.len → ∃ errorBytes, env.marshalNonNil podsErrors = Except.ok errorBytes
        ∧ out0.Errors.get? (getCopyErrosFileName c) = some errorBytes) := by
  unfold storeSelectorErrors at h
  by_cases hlen : 0 < podsErrors.len
  · cases hm : env.marshalNonNil podsErrors with
    | error e => simp [hlen, hm] at h
    | ok errorBytes =>
      simp only [gt_iff_lt, hlen, if_true, hm, Except.ok.injEq] at h
      subst h
      refine ⟨fun _ => rfl, ?_, fun _ => ⟨errorBytes, rfl, GoMap.get?_set_self _ _ _⟩⟩
      intro k hk
      refine ⟨hlen, ?_⟩
      by_contra hne
      simp [GoMap.contains, GoMap.get?_set_ne _ _ _ _ hne, GoMap.get?_empty] at hk
  · simp only [gt_iff_lt, hlen, if_false, Except.ok.injEq] at h
    subst h
    refine ⟨fun _ => rfl, ?_, fun h' => absurd h' hlen⟩
    intro k hk
    simp [GoMap.contains, GoMap.get?_empty] at hk

/-- A run of `Copy` that prints a bundle went through the loop from the bundle that holds
the encoded selector errors, if there were any. -/
theorem Copy_done (env : Env) (c : CopySpec) (redact : Bool) (cfg : RestConfig)
    (client : Clientset) (bundle : CopyOutput) (printed : String)
    (hcfg : env.getConfig ConfigCall.atCopy = Except.ok cfg)
    (hclient : env.newForConfig cfg = Except.ok client)
    (hrun : Copy env c redact = CopyResult.done bundle printed) :
    ∃ out0, storeSelectorErrors env c
          (env.listPodsInSelectors client c.Namespace c.Selector).2 = Except.ok out0
      ∧ copyLoop env client c 0 (env.listPodsInSelectors client c.Namespace c.Selector).1 out0
          = Run.value (Except.ok bundle)
      ∧ ∃ b, env.marshalIndent bundle = Except.ok b ∧ printed = b ++ "\n" := by
  unfold Copy at hrun
  simp only [hcfg, hclient] at hrun
  rw [collectOutput_eq] at hrun
  cases h0 : storeSelectorErrors env c
      (env.listPodsInSelectors client c.Namespace c.Selector).2 with
  | error e => simp [h0] at hrun
  | ok out0 =>
    simp only [h0] at hrun
    refine ⟨out0, rfl, ?_⟩
    cases hl : copyLoop env client c 0
        (env.listPodsInSelectors client c.Namespace c.Selector).1 out0 with
    | panic msg => simp [hl] at hrun
    | value r =>
      cases r with
      | error e => simp [hl] at hrun
      | ok out =>
        simp only [hl] at hrun
        cases hm : env.marshalIndent out with
        | error e => simp [hm] at hrun
        | ok b =>
          simp only [hm, CopyResult.done.injEq] at hrun
          obtain ⟨h1, h2⟩ := hrun
          subst h1
          exact ⟨rfl, b, hm, h2.symm⟩

theorem GoMap.len_empty {V : Type} : (GoMap.empty : GoMap V).len = 0 := rfl

theorem GoMap.len_ofList_singleton_ne {V : Type} (k : String) (v : V) :
    (GoMap.ofList [(k, v)]).len ≠ 0 := by
  simp [GoMap.ofList, GoMap.len, GoMap.set]

/-- A successful fetch: what `copyFiles` did when it returns no error map. -/
theorem copyFiles_success (env : Env) (i : Nat) (client : Clientset) (pod : Pod)
    (c : CopySpec) (files : GoMap Bytes) (errs : GoMap String)
    (h : copyFiles env i client pod c = Run.value (files, errs)) (hlen : errs.len = 0) :
    ∃ cfg container exec,
      env.getConfig (ConfigCall.atCopyFiles i) = Except.ok cfg
      ∧ effectiveContainer pod c = Run.value container
      ∧ env.addToScheme i = none
      ∧ env.newSPDYExecutor i cfg "POST" (execRequest client pod container c) = Except.ok exec
      ∧ (env.stream i exec streamOptions).err = none
      ∧ files = GoMap.ofList [(filesKey pod c, (env.stream i exec streamOptions).stdout)]
      ∧ errs = GoMap.empty := by
  unfold copyFiles at h
  cases hc : env.getConfig (ConfigCall.atCopyFiles i) with
  | error e =>
    simp only [hc, Run.value.injEq, Prod.mk.injEq] at h
    have := connectionPayload_len e
    rw [connectionPayload, h.2] at this
    omega
  | ok cfg =>
    simp only [hc] at h
    cases hcont : effectiveContainer pod c with
    | panic msg => simp [hcont] at h
    | value container =>
      simp only [hcont] at h
      cases hsch : env.addToScheme i with
      | some e =>
        simp only [hsch, Run.value.injEq, Prod.mk.injEq] at h
        have := connectionPayload_len e
        rw [connectionPayload, h.2] at this
        omega
      | none =>
        simp only [hsch] at h
        cases hx : env.newSPDYExecutor i cfg "POST" (execRequest client pod container c) with
        | error e =>
          simp only [hx, Run.value.injEq, Prod.mk.injEq] at h
          have := connectionPayload_len e
          rw [connectionPayload, h.2] at this
          omega
        | ok exec =>
          simp only [hx] at h
          cases hs : (env.stream i exec streamOptions).err with
          | some e =>
            simp only [hs, Run.value.injEq, Prod.mk.injEq] at h
            have := streamPayload_len (env.stream i exec streamOptions) e
            rw [streamPayload, h.2] at this
            omega
          | none =>
            simp only [hs, Run.value.injEq, Prod.mk.injEq] at h
            exact ⟨cfg, container, exec, rfl, rfl, rfl, hx, hs, h.1.symm, h.2.symm⟩

/-- A failed fetch: what `copyFiles` did when it returns an error map.  Either a step before
the stream failed and the map is `connectionPayload`, or `exec.Stream` failed and the map is
`streamPayload` of what the stream left behind. -/
theorem copyFiles_failure (env : Env) (i : Nat) (client : Clientset) (pod : Pod)
    (c : CopySpec) (files : GoMap Bytes) (errs : GoMap String)
    (h : copyFiles env i client pod c = Run.value (files, errs)) (hlen : 0 < errs.len) :
    files = GoMap.empty
    ∧ ((∃ msg, errs = connectionPayload msg
          ∧ (env.getConfig (ConfigCall.atCopyFiles i) = Except.error msg
            ∨ env.addToScheme i = some msg
            ∨ ∃ cfg container,
                env.getConfig (ConfigCall.atCopyFiles i) = Except.ok cfg
                ∧ effectiveContainer pod c = Run.value container
                ∧ env.newSPDYExecutor i cfg "POST" (execRequest client pod container c)
                    = Except.error msg))
      ∨ (∃ cfg container exec msg,
          env.getConfig (ConfigCall.atCopyFiles i) = Except.ok cfg
          ∧ effectiveContainer pod c = Run.value container
          ∧ env.newSPDYExecutor i cfg "POST" (execRequest client pod container c)
              = Except.ok exec
          ∧ (env.stream i exec streamOptions).err = some msg
          ∧ errs = streamPayload (env.stream i exec streamOptions) msg)) := by
  unfold copyFiles at h
  cases hc : env.getConfig (ConfigCall.atCopyFiles i) with
  | error e =>
    simp only [hc, Run.value.injEq, Prod.mk.injEq] at h
    exact ⟨h.1.symm, Or.inl ⟨e, h.2.symm, Or.inl rfl⟩⟩
  | ok cfg =>
    simp only [hc] at h
    cases hcont : effectiveContainer pod c with
    | panic msg => simp [hcont] at h
    | value container =>
      simp only [hcont] at h
      cases hsch : env.addToScheme i with
      | some e =>
        simp only [hsch, Run.value.injEq, Prod.mk.injEq] at h
        exact ⟨h.1.symm, Or.inl ⟨e, h.2.symm, Or.inr (Or.inl rfl)⟩⟩
      | none =>
        simp only [hsch] at h
        cases hx : env.newSPDYExecutor i cfg "POST" (execRequest client pod container c) with
        | error e =>
          simp only [hx, Run.value.injEq, Prod.mk.injEq] at h
          exact ⟨h.1.symm, Or.inl ⟨e, h.2.symm, Or.inr (Or.inr ⟨cfg, container, rfl, rfl, hx⟩)⟩⟩
        | ok exec =>
          simp only [hx] at h
          cases hs : (env.stream i exec streamOptions).err with
          | some e =>
            simp only [hs, Run.value.injEq, Prod.mk.injEq] at h
            exact ⟨h.1.symm, Or.inr ⟨cfg, container, exec, e, rfl, rfl, hx, hs, h.2.symm⟩⟩
          | none =>
            simp only [hs, Run.value.injEq, Prod.mk.injEq] at h
            rw [← h.2] at hlen
            simp [GoMap.len_empty] at hlen

/-- The error map of a failure before the stream holds the message and nothing else. -/
theorem connectionPayload_fields (msg : String) :
    (connectionPayload msg).get? "error" = some msg
    ∧ (connectionPayload msg).get? "stdout" = none
    ∧ (connectionPayload msg).get? "stderr" = none := by
  refine ⟨?_, ?_, ?_⟩ <;>
    simp [connectionPayload, GoMap.ofList, GoMap.set, GoMap.get?, GoMap.empty, getEntries]

/-- The error map of a stream failure holds the message and both captured outputs. -/
theorem streamPayload_fields (r : StreamResult) (msg : String) :
    (streamPayload r msg).get? "error" = some msg
    ∧ (streamPayload r msg).get? "stdout" = some r.stdout
    ∧ (streamPayload r msg).get? "stderr" = some r.stderr := by
  refine ⟨?_, ?_, ?_⟩ <;>
    simp [streamPayload, GoMap.ofList, GoMap.set, GoMap.get?, GoMap.empty, getEntries]

/-- With at least one container listed, `copyFiles` does not panic. -/
theorem copyFiles_no_panic (env : Env) (i : Nat) (client : Clientset) (pod : Pod)
    (c : CopySpec) (hpod : pod.Containers ≠ []) :
    ∃ r, copyFiles env i client pod c = Run.value r := by
  rcases copyFiles_cases env i client pod c with ⟨msg, hp⟩ | ⟨errs, hf, _⟩ | ⟨b, hs⟩
  · exfalso
    unfold copyFiles at hp
    cases hc : env.getConfig (ConfigCall.atCopyFiles i) with
    | error e => simp [hc] at hp
    | ok cfg =>
      simp only [hc] at hp
      cases hl : pod.Containers with
      | nil => exact hpod hl
      | cons first others =>
        simp only [effectiveContainer, hl] at hp
        cases hsch : env.addToScheme i with
        | some e => simp [hsch] at hp
        | none =>
          simp only [hsch] at hp
          split at hp
          · simp at hp
          · split at hp <;> simp at hp
  · exact ⟨_, hf⟩
  · exact ⟨_, hs⟩

section Loop

variable (env : Env) (client : Clientset) (c : CopySpec)

/-- With at least one container in every pod, the loop does not panic. -/
theorem copyLoop_no_panic (pods : List Pod) (hpods : ∀ pod ∈ pods, pod.Containers ≠ []) :
    ∀ (i : Nat) (out : CopyOutput), ∃ r, copyLoop env client c i pods out = Run.value r := by
  induction pods with
  | nil => intro i out; exact ⟨_, rfl⟩
  | cons p rest ih =>
    intro i out
    have hrest : ∀ pod ∈ rest, pod.Containers ≠ [] :=
      fun pod hm => hpods pod (List.mem_cons_of_mem _ hm)
    obtain ⟨⟨files, errs⟩, hr⟩ :=
      copyFiles_no_panic env i client p c (hpods p (List.mem_cons_self _ _))
    by_cases hlen : 0 < errs.len
    · cases hm : env.marshalNonNil errs with
      | error e => exact ⟨Except.error e, by simp [copyLoop, hr, hlen, hm]⟩
      | ok bytes =>
        obtain ⟨r, h⟩ := ih hrest (i + 1)
          { out with Errors := out.Errors.set (errorsKey p c) bytes }
        exact ⟨r, by simp [copyLoop, hr, hlen, hm, h]⟩
    · obtain ⟨r, h⟩ := ih hrest (i + 1) { out with Files := mergeFiles files out.Files }
      exact ⟨r, by simp [copyLoop, hr, hlen, h]⟩

/-- An early `return err` of the loop is the failed encoding of the error map of a failed
fetch. -/
theorem copyLoop_error (pods : List Pod) :
    ∀ (i : Nat) (out : CopyOutput) (err : String),
      copyLoop env client c i pods out = Run.value (Except.error err) →
      ∃ j pod errs, pods[j]? = some pod
        ∧ copyFiles env (i + j) client pod c = Run.value (GoMap.empty, errs)
        ∧ 0 < errs.len ∧ env.marshalNonNil errs = Except.error err := by
  induction pods with
  | nil => intro i out err h; simp [copyLoop] at h
  | cons p rest ih =>
    intro i out err h
    have shift : ∀ out1, copyLoop env client c (i + 1) rest out1
          = Run.value (Except.error err) →
        ∃ j pod errs, (p :: rest)[j]? = some pod
          ∧ copyFiles env (i + j) client pod c = Run.value (GoMap.empty, errs)
          ∧ 0 < errs.len ∧ env.marshalNonNil errs = Except.error err := by
      intro out1 h1
      obtain ⟨j, pod, errs, hj, hf, hlen, hm⟩ := ih (i + 1) out1 err h1
      refine ⟨j + 1, pod, errs, by simpa using hj, ?_, hlen, hm⟩
      rwa [show i + (j + 1) = i + 1 + j by omega]
    rcases copyFiles_cases env i client p c with ⟨msg, hp⟩ | ⟨errs, hf, hlen⟩ | ⟨b, hs⟩
    · simp [copyLoop, hp] at h
    · cases hm : env.marshalNonNil errs with
      | error e =>
        simp only [copyLoop, hf, hlen, hm, gt_iff_lt, if_true, Run.value.injEq,
          Except.error.injEq] at h
        subst h
        exact ⟨0, p, errs, by simp, by simpa using hf, hlen, hm⟩
      | ok bytes =>
        simp only [copyLoop, hf, hlen, hm, gt_iff_lt, if_true] at h
        exact shift _ h
    · have h0 : ¬ 0 < (GoMap.empty : GoMap String).len := by simp [GoMap.len_empty]
      simp only [copyLoop, hs, h0, gt_iff_lt, if_false] at h
      exact shift _ h

/-- In a loop that ends with a bundle, the error map of every failed fetch was encoded. -/
theorem copyLoop_ok_marshal (pods : List Pod) :
    ∀ (i : Nat) (out out' : CopyOutput) (j : Nat) (pod : Pod) (errs : GoMap String),
      copyLoop env client c i pods out = Run.value (Except.ok out') →
      pods[j]? = some pod →
      copyFiles env (i + j) client pod c = Run.value (GoMap.empty, errs) →
      0 < errs.len →
      ∃ bytes, env.marshalNonNil errs = Except.ok bytes := by
  induction pods with
  | nil => intro i out out' j pod errs _ hj; simp at hj
  | cons p rest ih =>
    intro i out out' j pod errs h hj hf hlen
    cases j with
    | zero =>
      simp only [List.getElem?_cons_zero, Option.some.injEq] at hj
      subst hj
      rcases copyLoop_cons_ok env client c i p rest out out' h with
        ⟨b0, hs0, _⟩ | ⟨errs0, bytes, hf0, _, hm, _⟩
      · exfalso
        have := hs0.symm.trans (by simpa using hf)
        simp only [Run.value.injEq, Prod.mk.injEq] at this
        rw [← this.2] at hlen
        simp [GoMap.len_empty] at hlen
      · have he : errs0 = errs := by
          have := hf0.symm.trans (by simpa using hf)
          simpa using this
        subst he
        exact ⟨bytes, hm⟩
    | succ j =>
      have hj' : rest[j]? = some pod := by simpa using hj
      have hf' : copyFiles env (i + 1 + j) client pod c = Run.value (GoMap.empty, errs) := by
        rwa [show i + (j + 1) = i + 1 + j by omega] at hf
      rcases copyLoop_cons_ok env client c i p rest out out' h with
        ⟨b0, _, hrest⟩ | ⟨errs0, bytes, _, _, _, hrest⟩
      · exact ih (i + 1) _ out' j pod errs hrest hj' hf' hlen
      · exact ih (i + 1) _ out' j pod errs hrest hj' hf' hlen

end Loop

/-! ## The outcomes of `collectOutput` -/

/-- With at least one container in every resolved pod, `collectOutput` does not panic. -/
theorem collectOutput_no_panic (env : Env) (client : Clientset) (c : CopySpec)
    (hpods : ∀ pod ∈ (env.listPodsInSelectors client c.Namespace c.Selector).1,
      pod.Containers ≠ []) :
    ∃ r, collectOutput env client c = Run.value r := by
  rw [collectOutput_eq]
  cases storeSelectorErrors env c (env.listPodsInSelectors client c.Namespace c.Selector).2 with
  | error e => exact ⟨_, rfl⟩
  | ok out0 => exact copyLoop_no_panic env client c _ hpods 0 out0

/-- An early `return err` of `collectOutput` is a failed encoding, of the selector errors or
of the error map of a failed fetch. -/
theorem collectOutput_error (env : Env) (client : Clientset) (c : CopySpec) (err : String)
    (h : collectOutput env client c = Run.value (Except.error err)) :
    (0 < (env.listPodsInSelectors client c.Namespace c.Selector).2.len
      ∧ env.marshalNonNil (env.listPodsInSelectors client c.Namespace c.Selector).2
          = Except.error err)
    ∨ (∃ j pod errs,
        (env.listPodsInSelectors client c.Namespace c.Selector).1[j]? = some pod
        ∧ copyFiles env j client pod c = Run.value (GoMap.empty, errs)
        ∧ 0 < errs.len ∧ env.marshalNonNil errs = Except.error err) := by
  rw [collectOutput_eq] at h
  cases h0 : storeSelectorErrors env c
      (env.listPodsInSelectors client c.Namespace c.Selector).2 with
  | error e =>
    simp only [h0, Run.value.injEq, Except.error.injEq] at h
    subst h
    left
    unfold storeSelectorErrors at h0
    by_cases hlen : 0 < (env.listPodsInSelectors client c.Namespace c.Selector).2.len
    · refine ⟨hlen, ?_⟩
      cases hm : env.marshalNonNil (env.listPodsInSelectors client c.Namespace c.Selector).2 with
      | error e' => simpa [hlen, hm] using h0
      | ok b => simp [hlen, hm] at h0
    · simp [hlen] at h0
  | ok out0 =>
    simp only [h0] at h
    right
    obtain ⟨j, pod, errs, hj, hf, hlen, hm⟩ := copyLoop_error env client c _ 0 out0 err h
    exact ⟨j, pod, errs, hj, by simpa using hf, hlen, hm⟩

/-- When `collectOutput` ends with a bundle, every encoding it needed succeeded, and the
bundle records the selector errors and every failed fetch. -/
theorem collectOutput_ok (env : Env) (client : Clientset) (c : CopySpec) (out : CopyOutput)
    (h : collectOutput env client c = Run.value (Except.ok out)) :
    (0 < (env.listPodsInSelectors client c.Namespace c.Selector).2.len →
      (∃ b, env.marshalNonNil (env.listPodsInSelectors client c.Namespace c.Selector).2
          = Except.ok b)
      ∧ out.Errors.contains (getCopyErrosFileName c) = true)
    ∧ (∀ j pod files errs,
        (env.listPodsInSelectors client c.Namespace c.Selector).1[j]? = some pod →
        copyFiles env j client pod c = Run.value (files, errs) → 0 < errs.len →
        (∃ b, env.marshalNonNil errs = Except.ok b)
        ∧ out.Errors.contains (errorsKey pod c) = true) := by
  rw [collectOutput_eq] at h
  cases h0 : storeSelectorErrors env c
      (env.listPodsInSelectors client c.Namespace c.Selector).2 with
  | error e => simp [h0] at h
  | ok out0 =>
    simp only [h0] at h
    obtain ⟨_, _, hsel⟩ := storeSelectorErrors_ok env c _ out0 h0
    constructor
    · intro hlen
      obtain ⟨b, hm, hget⟩ := hsel hlen
      refine ⟨⟨b, hm⟩, ?_⟩
      exact (copyLoop_contains_mono env client c _ 0 out0 out h _).2
        (by simp [GoMap.contains, hget])
    · intro j pod files errs hj hf hlen
      have hfiles := (copyFiles_failure env j client pod c files errs hf hlen).1
      subst hfiles
      have hf0 : copyFiles env (0 + j) client pod c = Run.value (GoMap.empty, errs) := by
        rwa [Nat.zero_add]
      refine ⟨copyLoop_ok_marshal env client c _ 0 out0 out j pod errs h hj hf0 hlen, ?_⟩
      rcases copyLoop_entries env client c _ 0 out0 out j pod h hj with
        ⟨⟨b, hs⟩, _⟩ | ⟨_, hc⟩
      · exfalso
        have := hf0.symm.trans hs
        simp only [Run.value.injEq, Prod.mk.injEq] at this
        rw [this.2] at hlen
        simp [GoMap.len_empty] at hlen
      · exact hc

/-! ## Helpers for the claims on the bundle -/

/-- A failed fetch, by the step that failed: the configuration lookup, the scheme, the
executor, or the stream.  Each step is reached only when the steps before it succeeded. -/
theorem copyFiles_failure_steps (env : Env) (i : Nat) (client : Clientset) (pod : Pod)
    (c : CopySpec) (files : GoMap Bytes) (errs : GoMap String)
    (h : copyFiles env i client pod c = Run.value (files, errs)) (hlen : 0 < errs.len) :
    (∃ msg, env.getConfig (ConfigCall.atCopyFiles i) = Except.error msg
        ∧ errs = connectionPayload msg)
    ∨ (∃ cfg container msg,
        env.getConfig (ConfigCall.atCopyFiles i) = Except.ok cfg
        ∧ effectiveContainer pod c = Run.value container
        ∧ env.addToScheme i = some msg
        ∧ errs = connectionPayload msg)
    ∨ (∃ cfg container msg,
        env.getConfig (ConfigCall.atCopyFiles i) = Except.ok cfg
        ∧ effectiveContainer pod c = Run.value container
        ∧ env.addToScheme i = none
        ∧ env.newSPDYExecutor i cfg "POST" (execRequest client pod container c)
            = Except.error msg
        ∧ errs = connectionPayload msg)
    ∨ (∃ cfg container exec msg,
        env.getConfig (ConfigCall.atCopyFiles i) = Except.ok cfg
        ∧ effectiveContainer pod c = Run.value container
        ∧ env.addToScheme i = none
        ∧ env.newSPDYExecutor i cfg "POST" (execRequest client pod container c)
            = Except.ok exec
        ∧ (env.stream i exec streamOptions).err = some msg
        ∧ errs = streamPayload (env.stream i exec streamOptions) msg) := by
  unfold copyFiles at h
  cases hc : env.getConfig (ConfigCall.atCopyFiles i) with
  | error e =>
    simp only [hc, Run.value.injEq, Prod.mk.injEq] at h
    exact Or.inl ⟨e, rfl, h.2.symm⟩
  | ok cfg =>
    simp only [hc] at h
    cases hcont : effectiveContainer pod c with
    | panic msg => simp [hcont] at h
    | value container =>
      simp only [hcont] at h
      cases hsch : env.addToScheme i with
      | some e =>
        simp only [hsch, Run.value.injEq, Prod.mk.injEq] at h
        exact Or.inr (Or.inl ⟨cfg, container, e, rfl, rfl, rfl, h.2.symm⟩)
      | none =>
        simp only [hsch] at h
        cases hx : env.newSPDYExecutor i cfg "POST" (execRequest client pod container c) with
        | error e =>
          simp only [hx, Run.value.injEq, Prod.mk.injEq] at h
          exact Or.inr (Or.inr (Or.inl ⟨cfg, container, e, rfl, rfl, rfl, hx, h.2.symm⟩))
        | ok exec =>
          simp only [hx] at h
          cases hs : (env.stream i exec streamOptions).err with
          | some e =>
            simp only [hs, Run.value.injEq, Prod.mk.injEq] at h
            exact Or.inr (Or.inr (Or.inr
              ⟨cfg, container, exec, e, rfl, rfl, rfl, hx, hs, h.2.symm⟩))
          | none =>
            simp only [hs, Run.value.injEq, Prod.mk.injEq] at h
            rw [← h.2] at hlen
            simp [GoMap.len_empty] at hlen

/-- A run of `Copy` that prints a bundle got it from `collectOutput`. -/
theorem Copy_done_collect (env : Env) (c : CopySpec) (redact : Bool) (cfg : RestConfig)
    (client : Clientset) (bundle : CopyOutput) (printed : String)
    (hcfg : env.getConfig ConfigCall.atCopy = Except.ok cfg)
    (hclient : env.newForConfig cfg = Except.ok client)
    (hrun : Copy env c redact = CopyResult.done bundle printed) :
    collectOutput env client c = Run.value (Except.ok bundle) := by
  unfold Copy at hrun
  simp only [hcfg, hclient] at hrun
  cases hco : collectOutput env client c with
  | panic msg => simp [hco] at hrun
  | value r =>
    cases r with
    | error e => simp [hco] at hrun
    | ok out =>
      simp only [hco] at hrun
      cases hm : env.marshalIndent out with
      | error e => simp [hm] at hrun
      | ok b =>
        simp only [hm, CopyResult.done.injEq] at hrun
        rw [hrun.1]

/-- What the bundle of `collectOutput` holds under the error keys.  The entry under
`getCopyErrosFileName` is the encoded selector errors unless a failed fetch has that key;
the entry under the error key of a failed fetch is its encoded error map unless a later
failed fetch has the same key. -/
theorem collectOutput_recorded (env : Env) (client : Clientset) (c : CopySpec)
    (out : CopyOutput) (h : collectOutput env client c = Run.value (Except.ok out)) :
    (0 < (env.listPodsInSelectors client c.Namespace c.Selector).2.len →
      (∀ (j : Nat) (pod : Pod) (files : GoMap Bytes) (errs : GoMap String),
        (env.listPodsInSelectors client c.Namespace c.Selector).1[j]? = some pod →
        copyFiles env j client pod c = Run.value (files, errs) → 0 < errs.len →
        errorsKey pod c ≠ getCopyErrosFileName c) →
      ∃ errorBytes,
        env.marshalNonNil (env.listPodsInSelectors client c.Namespace c.Selector).2
          = Except.ok errorBytes
        ∧ out.Errors.get? (getCopyErrosFileName c) = some errorBytes)
    ∧ (∀ (j : Nat) (pod : Pod) (files : GoMap Bytes) (errs : GoMap String),
        (env.listPodsInSelectors client c.Namespace c.Selector).1[j]? = some pod →
        copyFiles env j client pod c = Run.value (files, errs) → 0 < errs.len →
        (∀ (j' : Nat) (pod' : Pod) (files' : GoMap Bytes) (errs' : GoMap String), j < j' →
          (env.listPodsInSelectors client c.Namespace c.Selector).1[j']? = some pod' →
          errorsKey pod' c = errorsKey pod c →
          copyFiles env j' client pod' c = Run.value (files', errs') → errs'.len = 0) →
        ∃ bytes, env.marshalNonNil errs = Except.ok bytes
          ∧ out.Errors.get? (errorsKey pod c) = some bytes) := by
  rw [collectOutput_eq] at h
  cases h0 : storeSelectorErrors env c
      (env.listPodsInSelectors client c.Namespace c.Selector).2 with
  | error e => simp [h0] at h
  | ok out0 =>
    simp only [h0] at h
    obtain ⟨_, _, hstored⟩ := storeSelectorErrors_ok env c _ out0 h0
    constructor
    · intro hsel hkeys
      obtain ⟨errorBytes, hm, hget⟩ := hstored hsel
      refine ⟨errorBytes, hm, ?_⟩
      rw [copyLoop_errors_frame env client c _ _ 0 out0 out h, hget]
      intro j pod errs hj hk hf
      rw [Nat.zero_add] at hf
      exact hkeys j pod _ errs hj hf.1 hf.2 hk
    · intro j pod files errs hj hf hlen hlater
      have hfiles := (copyFiles_failure env j client pod c files errs hf hlen).1
      subst hfiles
      have hf0 : copyFiles env (0 + j) client pod c = Run.value (GoMap.empty, errs) := by
        rwa [Nat.zero_add]
      refine copyLoop_errors_last env client c _ 0 out0 out j pod errs h hj hf0 hlen ?_
      intro j' pod' errs' hlt hj' hk hcf
      rw [Nat.zero_add] at hcf
      have := hlater j' pod' _ _ hlt hj' hk hcf.1
      omega

/-- An error that `Copy` returns after the client was built is a failed encoding. -/
theorem Copy_failed_cause (env : Env) (c : CopySpec) (redact : Bool) (cfg : RestConfig)
    (client : Clientset) (e : String)
    (hcfg : env.getConfig ConfigCall.atCopy = Except.ok cfg)
    (hclient : env.newForConfig cfg = Except.ok client)
    (hrun : Copy env c redact = CopyResult.failed e) :
    serializationFails env client c := by
  unfold Copy at hrun
  simp only [hcfg, hclient] at hrun
  cases hco : collectOutput env client c with
  | panic msg => simp [hco] at hrun
  | value r =>
    cases r with
    | error err =>
      rcases collectOutput_error env client c err hco with ⟨hlen, hm⟩ | ⟨j, pod, errs, h⟩
      · exact Or.inl ⟨hlen, err, hm⟩
      · exact Or.inr (Or.inl ⟨j, pod, errs, err, h⟩)
    | ok out =>
      simp only [hco] at hrun
      cases hm : env.marshalIndent out with
      | error err => exact Or.inr (Or.inr ⟨out, err, hco, hm⟩)
      | ok b => simp [hm] at hrun

/-- When every resolved pod lists a container, `Copy` returns an error if an encoding fails
and prints a bundle otherwise. -/
theorem Copy_outcome (env : Env) (c : CopySpec) (redact : Bool) (cfg : RestConfig)
    (client : Clientset)
    (hcfg : env.getConfig ConfigCall.atCopy = Except.ok cfg)
    (hclient : env.newForConfig cfg = Except.ok client)
    (hpods : ∀ pod ∈ (env.listPodsInSelectors client c.Namespace c.Selector).1,
      pod.Containers ≠ []) :
    (serializationFails env client c → ∃ e, Copy env c redact = CopyResult.failed e)
    ∧ (¬ serializationFails env client c →
        ∃ bundle printed, Copy env c redact = CopyResult.done bundle printed) := by
  obtain ⟨r, hr⟩ := collectOutput_no_panic env client c hpods
  have hCopy : Copy env c redact
      = match r with
        | Except.error err => CopyResult.failed err
        | Except.ok out =>
          match env.marshalIndent out with
          | Except.error err => CopyResult.failed err
          | Except.ok b => CopyResult.done out (b ++ "\n") := by
    simp only [Copy, hcfg, hclient, hr]
    cases r <;> rfl
  cases r with
  | error err =>
    have hS : serializationFails env client c :=
      Copy_failed_cause env c redact cfg client err hcfg hclient hCopy
    exact ⟨fun _ => ⟨err, hCopy⟩, fun hn => absurd hS hn⟩
  | ok out =>
    obtain ⟨hselOk, hpodOk⟩ := collectOutput_ok env client c out hr
    cases hm : env.marshalIndent out with
    | error err =>
      simp only [hm] at hCopy
      have hS : serializationFails env client c := Or.inr (Or.inr ⟨out, err, hr, hm⟩)
      exact ⟨fun _ => ⟨err, hCopy⟩, fun hn => absurd hS hn⟩
    | ok b =>
      simp only [hm] at hCopy
      have hnS : ¬ serializationFails env client c := by
        rintro (⟨hlen, e, he⟩ | ⟨j, pod, errs, e, hj, hf, hlen, he⟩ | ⟨out', e, ho, he⟩)
        · obtain ⟨⟨b', hb'⟩, _⟩ := hselOk hlen
          rw [hb'] at he
          cases he
        · obtain ⟨⟨b', hb'⟩, _⟩ := hpodOk j pod _ errs hj hf hlen
          rw [hb'] at he
          cases he
        · rw [hr] at ho
          simp only [Run.value.injEq, Except.ok.injEq] at ho
          subst ho
          rw [hm] at he
          cases he
      exact ⟨fun hS => absurd hS hnS, fun _ => ⟨out, b ++ "\n", hCopy⟩⟩

/-! ## Strings -/

theorem utf8ByteSize_pos_iff (s : String) : 0 < s.utf8ByteSize ↔ s ≠ "" := by
  obtain ⟨l⟩ := s
  cases l with
  | nil => simp [String.utf8ByteSize, String.utf8ByteSize.go]
  | cons ch rest =>
    have : 0 < ch.utf8Size := Char.utf8Size_pos ch
    constructor
    · intro _ h
      simp [String.ext_iff] at h
    · intro _
      simp only [String.utf8ByteSize, String.utf8ByteSize.go]
      omega

/-- Two lists that agree after their first slash-free part agree part by part. -/
theorem slash_split (a b x y : List Char) (ha : '/' ∉ a) (hb : '/' ∉ b)
    (h : a ++ '/' :: x = b ++ '/' :: y) : a = b ∧ x = y := by
  induction a generalizing b with
  | nil =>
    cases b with
    | nil => simpa using h
    | cons d b' =>
      simp only [List.nil_append, List.cons_append, List.cons.injEq] at h
      exact absurd (h.1 ▸ List.mem_cons_self _ _) hb
  | cons d a' ih =>
    cases b with
    | nil =>
      simp only [List.nil_append, List.cons_append, List.cons.injEq] at h
      exact absurd (h.1 ▸ List.mem_cons_self _ _) ha
    | cons e b' =>
      simp only [List.cons_append, List.cons.injEq] at h
      have := ih b' (fun hm => ha (List.mem_cons_of_mem _ hm))
        (fun hm => hb (List.mem_cons_of_mem _ hm)) h.2
      exact ⟨by rw [h.1, this.1], this.2⟩

theorem string_append_right_cancel (a b s : String) (h : a ++ s = b ++ s) : a = b := by
  have := congrArg String.data h
  simp only [String.data_append] at this
  exact String.ext (List.append_cancel_right this)

/-- Pods with the same error key have the same file key. -/
theorem filesKey_of_errorsKey (p q : Pod) (c : CopySpec) (h : errorsKey p c = errorsKey q c) :
    filesKey p c = filesKey q c := by
  rw [errorsKey_eq, errorsKey_eq] at h
  exact string_append_right_cancel _ _ _ h

/-- The file key determines namespace and name when the namespaces hold no slash. -/
theorem identity_of_filesKey (p q : Pod) (c : CopySpec)
    (hp : '/' ∉ p.Namespace.toList) (hq : '/' ∉ q.Namespace.toList)
    (h : filesKey p c = filesKey q c) : p.Namespace = q.Namespace ∧ p.Name = q.Name := by
  unfold filesKey at h
  have h1 := string_append_right_cancel _ _ _ h
  have h2 := string_append_right_cancel _ _ _ h1
  have h3 := congrArg String.data h2
  simp only [String.data_append] at h3
  have h4 : p.Namespace.data ++ '/' :: p.Name.data = q.Namespace.data ++ '/' :: q.Name.data := by
    simpa using h3
  have := slash_split _ _ _ _ hp hq h4
  exact ⟨String.ext this.1, String.ext this.2⟩

/-! ## The claims on `getCopyErrosFileName` and on the keys -/

/-- C5. `getCopyErrosFileName` returns the collector name followed by `.json` for every
request whose `CollectorName` is not empty, so `disk` gives `disk.json`, and returns
`errors.json` for every request whose `CollectorName` is empty. -/
theorem getCopyErrosFileName_spec (c : CopySpec) :
    (c.CollectorName ≠ "" → getCopyErrosFileName c = c.CollectorName ++ ".json")
    ∧ (c.CollectorName = "" → getCopyErrosFileName c = "errors.json")
    ∧ getCopyErrosFileName { c with CollectorName := "disk" } = "disk.json" := by
  refine ⟨?_, ?_, ?_⟩
  · intro h
    have := (utf8ByteSize_pos_iff c.CollectorName).2 h
    simp [getCopyErrosFileName, this]
  · intro h
    simp [getCopyErrosFileName, h, String.utf8ByteSize, String.utf8ByteSize.go]
  · rfl

/-- An instance of C5: the request named `default/web//etc/hosts-errors` and the request
without a name. -/
theorem getCopyErrosFileName_spec_witness :
    getCopyErrosFileName clashingRequest = "default/web//etc/hosts-errors" ++ ".json"
    ∧ getCopyErrosFileName hostsRequest = "errors.json" :=
  ⟨(getCopyErrosFileName_spec clashingRequest).1 (by decide),
    (getCopyErrosFileName_spec hostsRequest).2.1 (by decide)⟩

/-- C10. For one `ContainerPath` and two pods whose namespaces and names hold no slash, equal
file keys force equal namespace and name, and so do equal error keys: entries of distinct
pods do not share a key of the bundle. -/
theorem keys_injective (c : CopySpec) (p q : Pod)
    (hpns : '/' ∉ p.Namespace.toList) (_hpname : '/' ∉ p.Name.toList)
    (hqns : '/' ∉ q.Namespace.toList) (_hqname : '/' ∉ q.Name.toList) :
    (filesKey p c = filesKey q c → p.Namespace = q.Namespace ∧ p.Name = q.Name)
    ∧ (errorsKey p c = errorsKey q c → p.Namespace = q.Namespace ∧ p.Name = q.Name) :=
  ⟨identity_of_filesKey p q c hpns hqns,
    fun h => identity_of_filesKey p q c hpns hqns (filesKey_of_errorsKey p q c h)⟩

/-- An instance of C10: the keys of `web` and `db` differ. -/
theorem keys_injective_witness :
    filesKey web hostsRequest ≠ filesKey db hostsRequest
    ∧ errorsKey web hostsRequest ≠ errorsKey db hostsRequest :=
  ⟨fun h => absurd ((keys_injective hostsRequest web db (by decide) (by decide) (by decide)
      (by decide)).1 h).2 (by decide),
    fun h => absurd ((keys_injective hostsRequest web db (by decide) (by decide) (by decide)
      (by decide)).2 h).2 (by decide)⟩

/-! ## The claims on `copyFiles` -/

/-- C8, at the failing input.  For a pod with a first container `copyFiles` targets the
request's `ContainerName` when that is not empty and the first container otherwise.  For a
pod value without containers it panics on `Containers[0]` before it looks at
`ContainerName`, whatever the request: the named container is not used, and `Copy` ends by
that panic.  The pod `bare` with the request that names the container `nginx` is the concrete
case. -/
theorem copyFiles_empty_containers_panics :
    (∀ (ns name : String) (first : Container) (others : List Container) (c : CopySpec),
      effectiveContainer ⟨ns, name, first :: others⟩ c
        = Run.value (if c.ContainerName ≠ "" then c.ContainerName else first.Name))
    ∧ (∀ (ns name : String) (c : CopySpec),
        effectiveContainer ⟨ns, name, []⟩ c
          = Run.panic "runtime error: index out of range [0] with length 0")
    ∧ namedContainerRequest.ContainerName = "nginx"
    ∧ envBare.getConfig (ConfigCall.atCopyFiles 0) = Except.ok exampleConfig
    ∧ copyFiles envBare 0 exampleClient bare namedContainerRequest
        = Run.panic "runtime error: index out of range [0] with length 0"
    ∧ Copy envBare namedContainerRequest false
        = CopyResult.panicked "runtime error: index out of range [0] with length 0" :=
  ⟨fun _ _ _ _ _ => rfl, fun _ _ _ => rfl, by decide, by decide, by decide, by decide⟩

/-- C9, at the failing input.  The exec request of `copyFiles` carries the command
`cat <ContainerPath>` but asks for stdin and not for stdout (`Stdin: true`, `Stdout: false`,
`Stderr: true`), while the stream options supply no stdin reader and a stdout sink.  The last
part shows the flags as they reach the executor in the fetch for `web`. -/
theorem copyFiles_exec_flags :
    (∀ (client : Clientset) (pod : Pod) (container : String) (c : CopySpec),
      (execRequest client pod container c).Params.Command = ["cat", c.ContainerPath]
      ∧ (execRequest client pod container c).Params.Stdin = true
      ∧ (execRequest client pod container c).Params.Stdout = false
      ∧ (execRequest client pod container c).Params.Stderr = true)
    ∧ streamOptions.Stdin = false ∧ streamOptions.Stdout = true ∧ streamOptions.Stderr = true
    ∧ copyFiles envProbe 0 exampleClient web hostsRequest
        = Run.value (GoMap.empty,
            connectionPayload "stdin=true stdout=false stderr=true") :=
  ⟨fun _ _ _ _ => ⟨rfl, rfl, rfl, rfl⟩, rfl, rfl, rfl, by decide⟩

/-! ## The claims on the bundle of `Copy` -/

/-- C1, refuted as stated.  The resolved list holds `web` twice and the file changes between
the two fetches: the first fetch succeeds and captures `v1`, the run ends without a fatal
error, and the bundle holds `v2`, not `v1`, under the key of `web`. -/
theorem duplicate_pod_overwrites_file :
    (envRewritten.listPodsInSelectors exampleClient "default" ["app=web"]).1[0]? = some web
    ∧ copyFiles envRewritten 0 exampleClient web hostsRequest
        = Run.value (GoMap.ofList [(filesKey web hostsRequest, "v1")], GoMap.empty)
    ∧ Copy envRewritten hostsRequest false
        = CopyResult.done bundleRewritten (renderOutput bundleRewritten ++ "\n")
    ∧ bundleRewritten.Files.get? (filesKey web hostsRequest) = some "v2"
    ∧ bundleRewritten.Files.get? (filesKey web hostsRequest) ≠ some "v1" := by
  refine ⟨by decide, by decide, by decide, by decide, by decide⟩

/-- C1 (amended).  In a run of `Copy` that ends without a fatal error, let the fetch for the
pod at position `i` of the resolved list succeed.  Then `copyFiles` returned exactly the
entry `<ns>/<name>/<ContainerPath>` with the bytes `b` that the stream wrote to the stdout
sink, the bundle's `Files` holds that key, and its value is `b` provided every later entry
of the list with the same key failed, whatever the other fetches did. -/
theorem Copy_files_entry (env : Env) (c : CopySpec) (redact : Bool) (cfg : RestConfig)
    (client : Clientset) (bundle : CopyOutput) (printed : String) (i : Nat) (pod : Pod)
    (files : GoMap Bytes) (copyErrors : GoMap String)
    (hcfg : env.getConfig ConfigCall.atCopy = Except.ok cfg)
    (hclient : env.newForConfig cfg = Except.ok client)
    (hrun : Copy env c redact = CopyResult.done bundle printed)
    (hpod : (env.listPodsInSelectors client c.Namespace c.Selector).1[i]? = some pod)
    (hfetch : copyFiles env i client pod c = Run.value (files, copyErrors))
    (hok : copyErrors.len = 0) :
    ∃ b, files = GoMap.ofList [(filesKey pod c, b)]
      ∧ (∃ cfg' container exec,
          env.getConfig (ConfigCall.atCopyFiles i) = Except.ok cfg'
          ∧ effectiveContainer pod c = Run.value container
          ∧ env.newSPDYExecutor i cfg' "POST" (execRequest client pod container c)
              = Except.ok exec
          ∧ (env.stream i exec streamOptions).err = none
          ∧ b = (env.stream i exec streamOptions).stdout)
      ∧ bundle.Files.contains (filesKey pod c) = true
      ∧ ((∀ j pod' files' errs', i < j →
            (env.listPodsInSelectors client c.Namespace c.Selector).1[j]? = some pod' →
            filesKey pod' c = filesKey pod c →
            copyFiles env j client pod' c = Run.value (files', errs') → 0 < errs'.len) →
          bundle.Files.get? (filesKey pod c) = some b) := by
  obtain ⟨out0, _, hloop, _⟩ := Copy_done env c redact cfg client bundle printed hcfg hclient hrun
  obtain ⟨cfg', container, exec, h1, h2, _, h4, h5, hfiles, herrs⟩ :=
    copyFiles_success env i client pod c files copyErrors hfetch hok
  have hs : copyFiles env (0 + i) client pod c
      = Run.value (GoMap.ofList [(filesKey pod c, (env.stream i exec streamOptions).stdout)],
          GoMap.empty) := by
    rw [Nat.zero_add, hfetch, hfiles, herrs]
  refine ⟨_, hfiles, ⟨cfg', container, exec, h1, h2, h4, h5, rfl⟩, ?_, ?_⟩
  · rcases copyLoop_entries env client c _ 0 out0 bundle i pod hloop hpod with
      ⟨_, hc⟩ | ⟨⟨errs, hf, hlen⟩, _⟩
    · exact hc
    · exfalso
      have := hs.symm.trans hf
      simp only [Run.value.injEq, Prod.mk.injEq] at this
      rw [← this.2] at hlen
      simp [GoMap.len_empty] at hlen
  · intro hlater
    refine copyLoop_files_last env client c _ 0 out0 bundle i pod _ hloop hpod hs ?_
    intro j pod' b' hlt hj hk hs'
    rw [Nat.zero_add] at hs'
    have := hlater j pod' _ _ hlt hj hk hs'
    simp [GoMap.len_empty] at this

/-- An instance of C1 (amended): `web` twice, the first fetch succeeds and the second
breaks; the bundle holds what the first fetch captured. -/
theorem Copy_files_entry_witness :
    bundleFlaky.Files.contains (filesKey web hostsRequest) = true
    ∧ bundleFlaky.Files.get? (filesKey web hostsRequest) = some "v1" := by
  obtain ⟨b, hfiles, _, hc, hget⟩ :=
    Copy_files_entry envFlaky hostsRequest false exampleConfig exampleClient
      bundleFlaky (renderOutput bundleFlaky ++ "\n")
      0 web (GoMap.ofList [("default/web//etc/hosts", "v1")]) GoMap.empty
      (by decide) (by decide) (by decide) (by decide) (by decide) (by decide)
  have hb : b = "v1" := by
    have h := congrArg (fun m => m.get? "default/web//etc/hosts") hfiles
    have hk : filesKey web hostsRequest = "default/web//etc/hosts" := by decide
    simp only [hk, GoMap.ofList_singleton, GoMap.get?, getEntries, if_true,
      Option.some.injEq] at h
    exact h.symm
  subst hb
  refine ⟨hc, hget ?_⟩
  intro j pod' files' errs' hlt hj _ hcf
  match j, hlt, hj, hcf with
  | 1, _, hj, hcf =>
    have hp : pod' = web := by
      have : some web = some pod' := hj
      exact (Option.some.inj this).symm
    subst hp
    have h1 : copyFiles envFlaky 1 exampleClient web hostsRequest
        = Run.value (GoMap.empty, streamPayload broken "command terminated with exit code 1") := by
      decide
    have h2 := h1.symm.trans hcf
    simp only [Run.value.injEq, Prod.mk.injEq] at h2
    rw [← h2.2]
    exact streamPayload_len _ _
  | j + 2, _, hj, _ => exact absurd hj (by simp [envFlaky, exampleEnv])

/-- C2, refuted as stated.  First run: the resolved list holds `web` twice; the first fetch
fails before the connection is made, the second after it.  The run ends without a fatal
error, and the entry under the error key of `web` is the encoding of the second failure,
which carries `stdout` and `stderr`, not the encoding of the connection failure.  Second
run: the executor cannot be built and the error it returns has an empty message; the error
map of the fetch, encoded under the error key of `web`, has the empty string as `error`. -/
theorem duplicate_pod_overwrites_error :
    ((envRetried.listPodsInSelectors exampleClient "default" ["app=web"]).1[0]? = some web
      ∧ copyFiles envRetried 0 exampleClient web hostsRequest
          = Run.value (GoMap.empty, connectionPayload "dial tcp: connection refused")
      ∧ Copy envRetried hostsRequest false
          = CopyResult.done bundleBroken (renderOutput bundleBroken ++ "\n")
      ∧ envRetried.marshalNonNil (streamPayload broken "command terminated with exit code 1")
          = Except.ok brokenBytes
      ∧ (streamPayload broken "command terminated with exit code 1").get? "stdout"
          = some "127.0.0.1 loc"
      ∧ bundleBroken.Errors.get? (errorsKey web hostsRequest) = some brokenBytes
      ∧ envRetried.marshalNonNil (connectionPayload "dial tcp: connection refused")
          ≠ Except.ok brokenBytes)
    ∧ ((envSilent.listPodsInSelectors exampleClient "default" ["app=web"]).1[0]? = some web
      ∧ envSilent.newSPDYExecutor 0 exampleConfig "POST"
            (execRequest exampleClient web "nginx" hostsRequest) = Except.error ""
      ∧ copyFiles envSilent 0 exampleClient web hostsRequest
          = Run.value (GoMap.empty, connectionPayload "")
      ∧ (connectionPayload "").get? "error" = some ""
      ∧ Copy envSilent hostsRequest false
          = CopyResult.done bundleSilent (renderOutput bundleSilent ++ "\n")
      ∧ envSilent.marshalNonNil (connectionPayload "") = Except.ok "error=;"
      ∧ bundleSilent.Errors.get? (errorsKey web hostsRequest) = some "error=;") := by
  refine ⟨⟨by decide, by decide, by decide, by decide, by decide, by decide, by decide⟩,
    ⟨by decide, by decide, by decide, by decide, by decide, by decide, by decide⟩⟩

/-- C2 (amended).  In a run of `Copy` that ends without a fatal error, let the fetch for the
pod at position `i` of the resolved list fail.  Then the bundle's `Errors` holds the key
`<ns>/<name>/<ContainerPath>-errors.json`.  The error map of the fetch has its `error` field
set to the message of the step that failed, so the field is not empty when that message is
not.  When the configuration lookup, the scheme or the executor failed, the map has no
`stdout` and no `stderr` field; when all three succeeded and the stream failed, both fields
hold the output captured before the failure.  The value under the key is the encoding of
that map provided every later entry of the list with the same key succeeded. -/
theorem Copy_errors_entry (env : Env) (c : CopySpec) (redact : Bool) (cfg : RestConfig)
    (client : Clientset) (bundle : CopyOutput) (printed : String) (i : Nat) (pod : Pod)
    (files : GoMap Bytes) (copyErrors : GoMap String)
    (hcfg : env.getConfig ConfigCall.atCopy = Except.ok cfg)
    (hclient : env.newForConfig cfg = Except.ok client)
    (hrun : Copy env c redact = CopyResult.done bundle printed)
    (hpod : (env.listPodsInSelectors client c.Namespace c.Selector).1[i]? = some pod)
    (hfetch : copyFiles env i client pod c = Run.value (files, copyErrors))
    (hfail : 0 < copyErrors.len) :
    bundle.Errors.contains (errorsKey pod c) = true
    ∧ (∃ msg, copyErrors.get? "error" = some msg
        ∧ (msg ≠ "" → ∃ s, copyErrors.get? "error" = some s ∧ s ≠ "")
        ∧ ((env.getConfig (ConfigCall.atCopyFiles i) = Except.error msg
              ∧ copyErrors = connectionPayload msg
              ∧ copyErrors.get? "stdout" = none ∧ copyErrors.get? "stderr" = none)
          ∨ (∃ cfg' container,
              env.getConfig (ConfigCall.atCopyFiles i) = Except.ok cfg'
              ∧ effectiveContainer pod c = Run.value container
              ∧ env.addToScheme i = some msg
              ∧ copyErrors = connectionPayload msg
              ∧ copyErrors.get? "stdout" = none ∧ copyErrors.get? "stderr" = none)
          ∨ (∃ cfg' container,
              env.getConfig (ConfigCall.atCopyFiles i) = Except.ok cfg'
              ∧ effectiveContainer pod c = Run.value container
              ∧ env.addToScheme i = none
              ∧ env.newSPDYExecutor i cfg' "POST" (execRequest client pod container c)
                  = Except.error msg
              ∧ copyErrors = connectionPayload msg
              ∧ copyErrors.get? "stdout" = none ∧ copyErrors.get? "stderr" = none)
          ∨ (∃ cfg' container exec,
              env.getConfig (ConfigCall.atCopyFiles i) = Except.ok cfg'
              ∧ effectiveContainer pod c = Run.value container
              ∧ env.addToScheme i = none
              ∧ env.newSPDYExecutor i cfg' "POST" (execRequest client pod container c)
                  = Except.ok exec
              ∧ (env.stream i exec streamOptions).err = some msg
              ∧ copyErrors = streamPayload (env.stream i exec streamOptions) msg
              ∧ copyErrors.get? "stdout" = some (env.stream i exec streamOptions).stdout
              ∧ copyErrors.get? "stderr" = some (env.stream i exec streamOptions).stderr)))
    ∧ ((∀ j pod' files' errs', i < j →
          (env.listPodsInSelectors client c.Namespace c.Selector).1[j]? = some pod' →
          errorsKey pod' c = errorsKey pod c →
          copyFiles env j client pod' c = Run.value (files', errs') → errs'.len = 0) →
        ∃ bytes, env.marshalNonNil copyErrors = Except.ok bytes
          ∧ bundle.Errors.get? (errorsKey pod c) = some bytes) := by
  have hco := Copy_done_collect env c redact cfg client bundle printed hcfg hclient hrun
  refine ⟨?_, ?_, ?_⟩
  · exact ((collectOutput_ok env client c bundle hco).2 i pod files copyErrors hpod hfetch
      hfail).2
  · rcases copyFiles_failure_steps env i client pod c files copyErrors hfetch hfail with
      ⟨msg, h1, he⟩ | ⟨cfg', container, msg, h1, h2, h3, he⟩
      | ⟨cfg', container, msg, h1, h2, h3, h4, he⟩
      | ⟨cfg', container, exec, msg, h1, h2, h3, h4, h5, he⟩
    · have hf := connectionPayload_fields msg
      rw [← he] at hf
      exact ⟨msg, hf.1, fun hne => ⟨msg, hf.1, hne⟩, Or.inl ⟨h1, he, hf.2.1, hf.2.2⟩⟩
    · have hf := connectionPayload_fields msg
      rw [← he] at hf
      exact ⟨msg, hf.1, fun hne => ⟨msg, hf.1, hne⟩,
        Or.inr (Or.inl ⟨cfg', container, h1, h2, h3, he, hf.2.1, hf.2.2⟩)⟩
    · have hf := connectionPayload_fields msg
      rw [← he] at hf
      exact ⟨msg, hf.1, fun hne => ⟨msg, hf.1, hne⟩,
        Or.inr (Or.inr (Or.inl ⟨cfg', container, h1, h2, h3, h4, he, hf.2.1, hf.2.2⟩))⟩
    · have hf := streamPayload_fields (env.stream i exec streamOptions) msg
      rw [← he] at hf
      exact ⟨msg, hf.1, fun hne => ⟨msg, hf.1, hne⟩,
        Or.inr (Or.inr (Or.inr
          ⟨cfg', container, exec, h1, h2, h3, h4, h5, he, hf.2.1, hf.2.2⟩))⟩
  · exact (collectOutput_recorded env client c bundle hco).2 i pod files copyErrors hpod
      hfetch hfail

/-- An instance of C2 (amended): `web`, whose fetch breaks, then `db`, whose fetch succeeds;
the bundle holds the encoded error map of `web`. -/
theorem Copy_errors_entry_witness :
    ∃ bytes,
      envMixed.marshalNonNil (streamPayload broken "command terminated with exit code 1")
        = Except.ok bytes
      ∧ bundleMixed.Errors.get? (errorsKey web hostsRequest) = some bytes := by
  obtain ⟨_, _, hget⟩ :=
    Copy_errors_entry envMixed hostsRequest false exampleConfig exampleClient
      bundleMixed (renderOutput bundleMixed ++ "\n")
      0 web GoMap.empty (streamPayload broken "command terminated with exit code 1")
      (by decide) (by decide) (by decide) (by decide) (by decide) (by decide)
  refine hget ?_
  intro j pod' files' errs' hlt hj hk _
  match j, hlt, hj with
  | 1, _, hj =>
    have hp : pod' = db := by
      have : some db = some pod' := hj
      exact (Option.some.inj this).symm
    subst hp
    exact absurd hk (by decide)
  | j + 2, _, hj => exact absurd hj (by simp [envMixed, exampleEnv])

/-- C3, refuted as stated.  First run: the resolved list holds `web` twice, the first fetch
succeeds and the second breaks, and the bundle holds both the file key and the error key of
`web`.  Second run: the collector is named after the error key of `web`, one selector was
rejected and the fetch for `web` succeeds; the bundle again holds both keys. -/
theorem bundle_holds_both_keys :
    (Copy envFlaky hostsRequest false
        = CopyResult.done bundleFlaky (renderOutput bundleFlaky ++ "\n")
      ∧ bundleFlaky.Files.contains (filesKey web hostsRequest) = true
      ∧ bundleFlaky.Errors.contains (errorsKey web hostsRequest) = true)
    ∧ (Copy envSelectorAndFile clashingRequest false
        = CopyResult.done bundleSelectorAndFile (renderOutput bundleSelectorAndFile ++ "\n")
      ∧ bundleSelectorAndFile.Files.contains (filesKey web clashingRequest) = true
      ∧ bundleSelectorAndFile.Errors.contains (errorsKey web clashingRequest) = true) := by
  refine ⟨⟨by decide, by decide, by decide⟩, ⟨by decide, by decide, by decide⟩⟩

/-- C3 (amended).  In a run of `Copy` that prints a bundle, for every list of resolved pods,
duplicates included, and every pod identity: the bundle holds both
`Files[<ns>/<name>/<ContainerPath>]` and `Errors[<ns>/<name>/<ContainerPath>-errors.json]`
if and only if some entry of the list with that key is fetched successfully and, besides,
either some entry with that key fails its fetch or there are selector errors and
`getCopyErrosFileName` is that error key.  So a node and path whose entries all succeed or
all fail contributes to one map only, unless the selector errors take its error key. -/
theorem Copy_bundle_exclusive (env : Env) (c : CopySpec) (redact : Bool) (cfg : RestConfig)
    (client : Clientset) (bundle : CopyOutput) (printed : String) (identity : Pod)
    (hcfg : env.getConfig ConfigCall.atCopy = Except.ok cfg)
    (hclient : env.newForConfig cfg = Except.ok client)
    (hrun : Copy env c redact = CopyResult.done bundle printed) :
    (bundle.Files.contains (filesKey identity c) = true
        ∧ bundle.Errors.contains (errorsKey identity c) = true)
    ↔ ((∃ (j : Nat) (pod : Pod) (files : GoMap Bytes) (errs : GoMap String),
          (env.listPodsInSelectors client c.Namespace c.Selector).1[j]? = some pod
          ∧ filesKey pod c = filesKey identity c
          ∧ copyFiles env j client pod c = Run.value (files, errs) ∧ errs.len = 0)
        ∧ ((∃ (j : Nat) (pod : Pod) (files : GoMap Bytes) (errs : GoMap String),
              (env.listPodsInSelectors client c.Namespace c.Selector).1[j]? = some pod
              ∧ filesKey pod c = filesKey identity c
              ∧ copyFiles env j client pod c = Run.value (files, errs) ∧ 0 < errs.len)
          ∨ (0 < (env.listPodsInSelectors client c.Namespace c.Selector).2.len
              ∧ getCopyErrosFileName c = errorsKey identity c))) := by
  obtain ⟨out0, h0, hloop, _⟩ :=
    Copy_done env c redact cfg client bundle printed hcfg hclient hrun
  obtain ⟨hnofiles, honly, hstored⟩ := storeSelectorErrors_ok env c _ out0 h0
  constructor
  · rintro ⟨hF, hE⟩
    constructor
    · rcases copyLoop_files_origin env client c _ _ 0 out0 bundle hloop hF with
        h | ⟨j, pod, b, hj, hk, hs⟩
      · simp [GoMap.contains, hnofiles] at h
      · rw [Nat.zero_add] at hs
        exact ⟨j, pod, _, _, hj, hk, hs, GoMap.len_empty⟩
    · rcases copyLoop_errors_origin env client c _ _ 0 out0 bundle hloop hE with
        h | ⟨j, pod, errs, hj, hk, hf, hlen⟩
      · obtain ⟨hlen, hkey⟩ := honly _ h
        exact Or.inr ⟨hlen, hkey.symm⟩
      · rw [Nat.zero_add] at hf
        exact Or.inl ⟨j, pod, _, errs, hj, filesKey_of_errorsKey pod identity c hk, hf, hlen⟩
  · rintro ⟨⟨j, pod, files, errs, hj, hk, hcf, hlen⟩, hrest⟩
    constructor
    · rcases copyLoop_entries env client c _ 0 out0 bundle j pod hloop hj with
        ⟨_, hc⟩ | ⟨⟨errs', hf, hlen'⟩, _⟩
      · rwa [hk] at hc
      · exfalso
        rw [Nat.zero_add, hcf] at hf
        simp only [Run.value.injEq, Prod.mk.injEq] at hf
        rw [hf.2] at hlen
        omega
    · rcases hrest with ⟨j', pod', files', errs', hj', hk', hcf', hlen'⟩ | ⟨hsel, hname⟩
      · rcases copyLoop_entries env client c _ 0 out0 bundle j' pod' hloop hj' with
          ⟨⟨b, hs⟩, _⟩ | ⟨_, hc⟩
        · exfalso
          rw [Nat.zero_add, hcf'] at hs
          simp only [Run.value.injEq, Prod.mk.injEq] at hs
          rw [hs.2] at hlen'
          simp [GoMap.len_empty] at hlen'
        · rwa [errorsKey_eq, hk', ← errorsKey_eq] at hc
      · obtain ⟨errorBytes, _, hget⟩ := hstored hsel
        rw [← hname]
        exact (copyLoop_contains_mono env client c _ 0 out0 bundle hloop _).2
          (by simp [GoMap.contains, hget])

/-- An instance of C3 (amended): `web` twice with both fetches successful; the bundle does
not hold both keys of `web`. -/
theorem Copy_bundle_exclusive_witness :
    ¬ (bundleRewritten.Files.contains (filesKey web hostsRequest) = true
        ∧ bundleRewritten.Errors.contains (errorsKey web hostsRequest) = true) := by
  intro hboth
  obtain ⟨_, hrest⟩ :=
    (Copy_bundle_exclusive envRewritten hostsRequest false exampleConfig exampleClient
      bundleRewritten (renderOutput bundleRewritten ++ "\n") web
      (by decide) (by decide) (by decide)).1 hboth
  rcases hrest with ⟨j, pod, files, errs, hj, _, hcf, hlen⟩ | ⟨hsel, _⟩
  · have hsucc : ∀ n, n < 2 → copyFiles envRewritten n exampleClient web hostsRequest
        = Run.value (GoMap.ofList [(filesKey web hostsRequest,
            if n = 0 then "v1" else "v2")], GoMap.empty) := by
      intro n hn
      match n, hn with
      | 0, _ => decide
      | 1, _ => decide
    match j, hj with
    | 0, hj =>
      have hp : pod = web := (Option.some.inj hj).symm
      subst hp
      rw [hsucc 0 (by omega)] at hcf
      simp only [Run.value.injEq, Prod.mk.injEq] at hcf
      rw [← hcf.2] at hlen
      simp [GoMap.len_empty] at hlen
    | 1, hj =>
      have hp : pod = web := (Option.some.inj hj).symm
      subst hp
      rw [hsucc 1 (by omega)] at hcf
      simp only [Run.value.injEq, Prod.mk.injEq] at hcf
      rw [← hcf.2] at hlen
      simp [GoMap.len_empty] at hlen
    | j + 2, hj => exact absurd hj (by simp [envRewritten, exampleEnv])
  · exact absurd hsel (by decide)

/-- C4, refuted as stated.  The collector is named after the error key of `web`, one selector
was rejected and the fetch for `web` breaks.  No encoding fails and the run prints a bundle,
but the entry under `getCopyErrosFileName` is the error map of `web`: the encoded selector
errors were overwritten. -/
theorem selector_errors_overwritten :
    (envSelectorAndError.listPodsInSelectors exampleClient "default" ["app=web"])
        = ([web], selectorErrors)
    ∧ 0 < selectorErrors.len
    ∧ envSelectorAndError.marshalNonNil selectorErrors = Except.ok selectorBytes
    ∧ Copy envSelectorAndError clashingRequest false
        = CopyResult.done bundleBroken (renderOutput bundleBroken ++ "\n")
    ∧ bundleBroken.Errors.get? (getCopyErrosFileName clashingRequest) = some brokenBytes
    ∧ bundleBroken.Errors.get? (getCopyErrosFileName clashingRequest) ≠ some selectorBytes := by
  refine ⟨by decide, by decide, by decide, by decide, by decide, by decide⟩

/-- C4 (amended).  In a run of `Copy` that prints a bundle, let the resolver return selector
errors together with any list of pods, and let no failed fetch have `getCopyErrosFileName`
as its error key.  Then the bundle's `Errors` holds the encoded selector errors under
`getCopyErrosFileName`, and for every resolved pod the bundle holds its file key in `Files`
when its fetch succeeded and its error key in `Errors` when it failed. -/
theorem Copy_selector_entry (env : Env) (c : CopySpec) (redact : Bool) (cfg : RestConfig)
    (client : Clientset) (bundle : CopyOutput) (printed : String)
    (hcfg : env.getConfig ConfigCall.atCopy = Except.ok cfg)
    (hclient : env.newForConfig cfg = Except.ok client)
    (hrun : Copy env c redact = CopyResult.done bundle printed)
    (hsel : 0 < (env.listPodsInSelectors client c.Namespace c.Selector).2.len)
    (hkeys : ∀ (j : Nat) (pod : Pod) (files : GoMap Bytes) (errs : GoMap String),
      (env.listPodsInSelectors client c.Namespace c.Selector).1[j]? = some pod →
      copyFiles env j client pod c = Run.value (files, errs) → 0 < errs.len →
      errorsKey pod c ≠ getCopyErrosFileName c) :
    (∃ errorBytes,
      env.marshalNonNil (env.listPodsInSelectors client c.Namespace c.Selector).2
        = Except.ok errorBytes
      ∧ bundle.Errors.get? (getCopyErrosFileName c) = some errorBytes)
    ∧ (∀ (j : Nat) (pod : Pod),
        (env.listPodsInSelectors client c.Namespace c.Selector).1[j]? = some pod →
        ∃ files errs, copyFiles env j client pod c = Run.value (files, errs)
          ∧ ((errs.len = 0 ∧ bundle.Files.contains (filesKey pod c) = true)
            ∨ (0 < errs.len ∧ bundle.Errors.contains (errorsKey pod c) = true))) := by
  obtain ⟨out0, h0, hloop, _⟩ :=
    Copy_done env c redact cfg client bundle printed hcfg hclient hrun
  obtain ⟨_, _, hstored⟩ := storeSelectorErrors_ok env c _ out0 h0
  obtain ⟨errorBytes, hm, hget⟩ := hstored hsel
  constructor
  · refine ⟨errorBytes, hm, ?_⟩
    rw [copyLoop_errors_frame env client c _ _ 0 out0 bundle hloop, hget]
    intro j pod errs hj hk hf
    rw [Nat.zero_add] at hf
    exact hkeys j pod _ errs hj hf.1 hf.2 hk
  · intro j pod hj
    rcases copyLoop_entries env client c _ 0 out0 bundle j pod hloop hj with
      ⟨⟨b, hs⟩, hc⟩ | ⟨⟨errs, hf, hlen⟩, hc⟩
    · rw [Nat.zero_add] at hs
      exact ⟨_, _, hs, Or.inl ⟨GoMap.len_empty, hc⟩⟩
    · rw [Nat.zero_add] at hf
      exact ⟨_, _, hf, Or.inr ⟨hlen, hc⟩⟩

/-- An instance of C4 (amended): one rejected selector, `web`, whose fetch breaks, and `db`;
the request has no collector name, so the selector errors are under `errors.json`. -/
theorem Copy_selector_entry_witness :
    ∃ errorBytes,
      envMixed.marshalNonNil
          (envMixed.listPodsInSelectors exampleClient hostsRequest.Namespace
            hostsRequest.Selector).2 = Except.ok errorBytes
      ∧ bundleMixed.Errors.get? (getCopyErrosFileName hostsRequest) = some errorBytes := by
  refine (Copy_selector_entry envMixed hostsRequest false exampleConfig exampleClient
    bundleMixed (renderOutput bundleMixed ++ "\n")
    (by decide) (by decide) (by decide) (by decide) ?_).1
  intro j pod files errs hj _ _
  match j, hj with
  | 0, hj =>
    have hp : pod = web := (Option.some.inj hj).symm
    subst hp
    decide
  | 1, hj =>
    have hp : pod = db := (Option.some.inj hj).symm
    subst hp
    decide
  | j + 2, hj => exact absurd hj (by simp [envMixed, exampleEnv])

/-- C6, refuted as stated.  First run: `config.GetConfig` fails in the fetch for `web`, and
`Copy` returns nil with the failure under the error key of `web`.  Second run:
configuration, client and every encoding succeed and the resolved pod value lists no
container; `Copy` ends by a panic and returns nothing.  Third run: the collector is named
after the error key of `web`, one selector was rejected and the fetch for `web` breaks;
`Copy` returns nil and no entry of the bundle holds the encoded selector errors.  Fourth
run: `web` is listed twice and both fetches fail; `Copy` returns nil and no entry of the
bundle holds the encoded error map of the first failure. -/
theorem fetch_config_failure_returns_nil :
    (envConfigLostSingle.getConfig (ConfigCall.atCopyFiles 0)
        = Except.error "unable to load in-cluster configuration"
      ∧ Copy envConfigLostSingle hostsRequest false
        = CopyResult.done bundleConfigLostSingle
            (renderOutput bundleConfigLostSingle ++ "\n"))
    ∧ (envBare.getConfig ConfigCall.atCopy = Except.ok exampleConfig
      ∧ envBare.getConfig (ConfigCall.atCopyFiles 0) = Except.ok exampleConfig
      ∧ envBare.newForConfig exampleConfig = Except.ok exampleClient
      ∧ envBare.listPodsInSelectors exampleClient "default" ["app=web"]
          = ([bare], GoMap.empty)
      ∧ Copy envBare hostsRequest false
          = CopyResult.panicked "runtime error: index out of range [0] with length 0")
    ∧ (envSelectorAndError.listPodsInSelectors exampleClient "default" ["app=web"]
          = ([web], selectorErrors)
      ∧ 0 < selectorErrors.len
      ∧ envSelectorAndError.marshalNonNil selectorErrors = Except.ok selectorBytes
      ∧ Copy envSelectorAndError clashingRequest false
          = CopyResult.done bundleBroken (renderOutput bundleBroken ++ "\n")
      ∧ ∀ entry ∈ bundleBroken.Errors.entries, entry.2 ≠ selectorBytes)
    ∧ (envRetried.listPodsInSelectors exampleClient "default" ["app=web"]
          = ([web, web], GoMap.empty)
      ∧ copyFiles envRetried 0 exampleClient web hostsRequest
          = Run.value (GoMap.empty, connectionPayload "dial tcp: connection refused")
      ∧ envRetried.marshalNonNil (connectionPayload "dial tcp: connection refused")
          = Except.ok "error=dial tcp: connection refused;"
      ∧ Copy envRetried hostsRequest false
          = CopyResult.done bundleBroken (renderOutput bundleBroken ++ "\n")
      ∧ ∀ entry ∈ bundleBroken.Errors.entries,
          entry.2 ≠ "error=dial tcp: connection refused;") := by
  refine ⟨⟨by decide, by decide⟩, ⟨by decide, by decide, by decide, by decide, by decide⟩,
    ⟨by decide, by decide, by decide, by decide, by decide⟩,
    ⟨by decide, by decide, by decide, by decide, by decide⟩⟩

/-- C6 (amended).  `Copy` returns the error of the configuration lookup at its start and the
error of the client construction.  When both succeed and every resolved pod lists at least
one container, `Copy` returns an error if and only if an encoding fails (of the selector
errors, of the error map of a failed fetch, or of the bundle); otherwise, for every pod list
and every combination of selector errors and failed fetches, it returns nil and prints the
bundle.  The bundle's `Errors` then holds the key `getCopyErrosFileName` when there are
selector errors and the error key of every failed fetch; the entry under
`getCopyErrosFileName` is the encoded selector errors provided no failed fetch has that
error key, and the entry under the error key of a failed fetch is its encoded error map
provided every later entry of the list with the same error key succeeded.  A failure of
`config.GetConfig` inside `copyFiles` is a failed fetch, not a cause of an error. -/
theorem Copy_error_iff (env : Env) (c : CopySpec) (redact : Bool) :
    (∀ e, env.getConfig ConfigCall.atCopy = Except.error e →
      Copy env c redact = CopyResult.failed e)
    ∧ (∀ cfg e, env.getConfig ConfigCall.atCopy = Except.ok cfg →
        env.newForConfig cfg = Except.error e → Copy env c redact = CopyResult.failed e)
    ∧ (∀ cfg client, env.getConfig ConfigCall.atCopy = Except.ok cfg →
        env.newForConfig cfg = Except.ok client →
        (∀ pod ∈ (env.listPodsInSelectors client c.Namespace c.Selector).1,
          pod.Containers ≠ []) →
        ((∃ e, Copy env c redact = CopyResult.failed e) ↔ serializationFails env client c)
        ∧ (¬ serializationFails env client c →
            ∃ bundle printed, Copy env c redact = CopyResult.done bundle printed
              ∧ (0 < (env.listPodsInSelectors client c.Namespace c.Selector).2.len →
                  bundle.Errors.contains (getCopyErrosFileName c) = true
                  ∧ ((∀ (j : Nat) (pod : Pod) (files : GoMap Bytes) (errs : GoMap String),
                        (env.listPodsInSelectors client c.Namespace c.Selector).1[j]?
                          = some pod →
                        copyFiles env j client pod c = Run.value (files, errs) →
                        0 < errs.len → errorsKey pod c ≠ getCopyErrosFileName c) →
                      ∃ errorBytes,
                        env.marshalNonNil
                            (env.listPodsInSelectors client c.Namespace c.Selector).2
                          = Except.ok errorBytes
                        ∧ bundle.Errors.get? (getCopyErrosFileName c) = some errorBytes))
              ∧ (∀ (j : Nat) (pod : Pod) (files : GoMap Bytes) (errs : GoMap String),
                  (env.listPodsInSelectors client c.Namespace c.Selector).1[j]? = some pod →
                  copyFiles env j client pod c = Run.value (files, errs) → 0 < errs.len →
                  bundle.Errors.contains (errorsKey pod c) = true
                  ∧ ((∀ (j' : Nat) (pod' : Pod) (files' : GoMap Bytes)
                          (errs' : GoMap String), j < j' →
                        (env.listPodsInSelectors client c.Namespace c.Selector).1[j']?
                          = some pod' →
                        errorsKey pod' c = errorsKey pod c →
                        copyFiles env j' client pod' c = Run.value (files', errs') →
                        errs'.len = 0) →
                      ∃ bytes, env.marshalNonNil errs = Except.ok bytes
                        ∧ bundle.Errors.get? (errorsKey pod c) = some bytes))))
    ∧ (∀ i client pod e, env.getConfig (ConfigCall.atCopyFiles i) = Except.error e →
        ∃ errs, copyFiles env i client pod c = Run.value (GoMap.empty, errs)
          ∧ 0 < errs.len) := by
  refine ⟨?_, ?_, ?_, ?_⟩
  · intro e h
    simp [Copy, h]
  · intro cfg e h1 h2
    simp [Copy, h1, h2]
  · intro cfg client hcfg hclient hpods
    obtain ⟨hfails, hdone⟩ := Copy_outcome env c redact cfg client hcfg hclient hpods
    refine ⟨⟨fun ⟨e, he⟩ => Copy_failed_cause env c redact cfg client e hcfg hclient he,
      hfails⟩, fun hnS => ?_⟩
    obtain ⟨bundle, printed, hrun⟩ := hdone hnS
    have hco := Copy_done_collect env c redact cfg client bundle printed hcfg hclient hrun
    obtain ⟨hselKey, hpodKey⟩ := collectOutput_ok env client c bundle hco
    obtain ⟨hselVal, hpodVal⟩ := collectOutput_recorded env client c bundle hco
    exact ⟨bundle, printed, hrun, fun hlen => ⟨(hselKey hlen).2, hselVal hlen⟩,
      fun j pod files errs hj hf hlen =>
        ⟨(hpodKey j pod files errs hj hf hlen).2, hpodVal j pod files errs hj hf hlen⟩⟩
  · intro i client pod e h
    exact ⟨connectionPayload e, by simp [copyFiles, h, connectionPayload],
      connectionPayload_len e⟩

/-- An instance of C6 (amended): the run without configuration, the run without client, the
run with one rejected selector, a broken fetch and a successful one, which returns no error
and prints a bundle, and the fetch in which the configuration is lost. -/
theorem Copy_error_iff_witness :
    Copy envNoConfig hostsRequest false = CopyResult.failed "could not locate a kubeconfig"
    ∧ Copy envNoClient hostsRequest false
        = CopyResult.failed "host must be a URL or a host:port pair"
    ∧ ((∃ e, Copy envMixed hostsRequest false = CopyResult.failed e)
        ↔ serializationFails envMixed exampleClient hostsRequest)
    ∧ (∃ bundle printed, Copy envMixed hostsRequest false = CopyResult.done bundle printed
        ∧ bundle.Errors.contains (getCopyErrosFileName hostsRequest) = true)
    ∧ ∃ errs, copyFiles envConfigLost 0 exampleClient web hostsRequest
          = Run.value (GoMap.empty, errs) ∧ 0 < errs.len := by
  have hnS : ¬ serializationFails envMixed exampleClient hostsRequest := by
    rintro (⟨_, e, he⟩ | ⟨j, pod, errs, e, _, _, _, he⟩ | ⟨out, e, _, he⟩)
    · simp [envMixed, exampleEnv] at he
    · simp [envMixed, exampleEnv] at he
    · simp [envMixed, exampleEnv] at he
  obtain ⟨bundle, printed, hrun, hsel, _⟩ :=
    ((Copy_error_iff envMixed hostsRequest false).2.2.1 exampleConfig exampleClient
      (by decide) (by decide) (by decide)).2 hnS
  exact ⟨(Copy_error_iff envNoConfig hostsRequest false).1 "could not locate a kubeconfig"
      (by decide),
    (Copy_error_iff envNoClient hostsRequest false).2.1 exampleConfig
      "host must be a URL or a host:port pair" (by decide) (by decide),
    ((Copy_error_iff envMixed hostsRequest false).2.2.1 exampleConfig exampleClient
      (by decide) (by decide) (by decide)).1,
    ⟨bundle, printed, hrun, (hsel (by decide)).1⟩,
    (Copy_error_iff envConfigLost hostsRequest false).2.2.2 0 exampleClient web
      "invalid configuration: no configuration has been provided" (by decide)⟩

/-- C7, refuted as stated.  First run: the resolved pods are `web` and `db`, and
`config.GetConfig` fails in the fetch for `web`.  `Copy` does not abort: it returns nil and
prints the bundle, with the failure under the error key of `web` and the file of `db`.
Second run: `web` is listed twice, `config.GetConfig` fails in the first fetch and the
stream breaks in the second.  `Copy` again returns nil, and the entry under the error key of
`web` is the encoding of the second failure. -/
theorem fetch_config_failure_not_fatal :
    ((envConfigLost.listPodsInSelectors exampleClient "default" ["app=web"]).1[0]? = some web
      ∧ envConfigLost.getConfig (ConfigCall.atCopyFiles 0)
          = Except.error "invalid configuration: no configuration has been provided"
      ∧ Copy envConfigLost hostsRequest false
          = CopyResult.done bundleConfigLost (renderOutput bundleConfigLost ++ "\n")
      ∧ bundleConfigLost.Errors.contains (errorsKey web hostsRequest) = true
      ∧ bundleConfigLost.Files.get? (filesKey db hostsRequest) = some "v1")
    ∧ (envConfigThenBroken.listPodsInSelectors exampleClient "default" ["app=web"]
          = ([web, web], GoMap.empty)
      ∧ envConfigThenBroken.getConfig (ConfigCall.atCopyFiles 0)
          = Except.error "invalid configuration: no configuration has been provided"
      ∧ envConfigThenBroken.marshalNonNil
            (connectionPayload "invalid configuration: no configuration has been provided")
          = Except.ok "error=invalid configuration: no configuration has been provided;"
      ∧ Copy envConfigThenBroken hostsRequest false
          = CopyResult.done bundleBroken (renderOutput bundleBroken ++ "\n")
      ∧ bundleBroken.Errors.get? (errorsKey web hostsRequest) = some brokenBytes
      ∧ brokenBytes ≠ "error=invalid configuration: no configuration has been provided;") := by
  refine ⟨⟨by decide, by decide, by decide, by decide, by decide⟩,
    ⟨by decide, by decide, by decide, by decide, by decide, by decide⟩⟩

/-- C7 (amended).  A failure of `config.GetConfig` at the start of `Copy` is fatal: `Copy`
returns that error and prints nothing.  A failure of `config.GetConfig` inside `copyFiles`
for a resolved pod is not: `copyFiles` returns no files and the error map that holds only
the message; in such a run every error that `Copy` returns is a failed encoding, and when
every resolved pod lists a container and no encoding fails `Copy` returns nil and prints a
bundle.  A bundle that such a run prints holds the error key of that pod, with the encoding
of that error map as its value provided every later entry of the list with the same error
key succeeded, and holds the file key or the error key of every resolved pod. -/
theorem GetConfig_failure (env : Env) (c : CopySpec) :
    (∀ redact e, env.getConfig ConfigCall.atCopy = Except.error e →
      Copy env c redact = CopyResult.failed e)
    ∧ (∀ i client pod e, env.getConfig (ConfigCall.atCopyFiles i) = Except.error e →
        copyFiles env i client pod c = Run.value (GoMap.empty, connectionPayload e))
    ∧ (∀ redact cfg client (i : Nat) (pod : Pod) e,
        env.getConfig ConfigCall.atCopy = Except.ok cfg →
        env.newForConfig cfg = Except.ok client →
        (env.listPodsInSelectors client c.Namespace c.Selector).1[i]? = some pod →
        env.getConfig (ConfigCall.atCopyFiles i) = Except.error e →
        (∀ e', Copy env c redact = CopyResult.failed e' → serializationFails env client c)
        ∧ ((∀ pod' ∈ (env.listPodsInSelectors client c.Namespace c.Selector).1,
              pod'.Containers ≠ []) →
            ¬ serializationFails env client c →
            ∃ bundle printed, Copy env c redact = CopyResult.done bundle printed)
        ∧ (∀ bundle printed, Copy env c redact = CopyResult.done bundle printed →
            bundle.Errors.contains (errorsKey pod c) = true
            ∧ ((∀ (j : Nat) (pod' : Pod) (files' : GoMap Bytes) (errs' : GoMap String),
                  i < j →
                  (env.listPodsInSelectors client c.Namespace c.Selector).1[j]? = some pod' →
                  errorsKey pod' c = errorsKey pod c →
                  copyFiles env j client pod' c = Run.value (files', errs') →
                  errs'.len = 0) →
                ∃ bytes, env.marshalNonNil (connectionPayload e) = Except.ok bytes
                  ∧ bundle.Errors.get? (errorsKey pod c) = some bytes)
            ∧ ∀ (j : Nat) (pod' : Pod),
                (env.listPodsInSelectors client c.Namespace c.Selector).1[j]? = some pod' →
                bundle.Files.contains (filesKey pod' c) = true
                ∨ bundle.Errors.contains (errorsKey pod' c) = true)) := by
  have hfetch : ∀ i client pod e, env.getConfig (ConfigCall.atCopyFiles i) = Except.error e →
      copyFiles env i client pod c = Run.value (GoMap.empty, connectionPayload e) := by
    intro i client pod e h
    simp [copyFiles, h, connectionPayload]
  refine ⟨?_, hfetch, ?_⟩
  · intro redact e h
    simp [Copy, h]
  · intro redact cfg client i pod e hcfg hclient hpod hfail
    refine ⟨fun e' he' => Copy_failed_cause env c redact cfg client e' hcfg hclient he',
      fun hpods hnS => (Copy_outcome env c redact cfg client hcfg hclient hpods).2 hnS, ?_⟩
    intro bundle printed hrun
    have hco := Copy_done_collect env c redact cfg client bundle printed hcfg hclient hrun
    obtain ⟨out0, _, hloop, _⟩ :=
      Copy_done env c redact cfg client bundle printed hcfg hclient hrun
    have hf := hfetch i client pod e hfail
    have hlen := connectionPayload_len e
    refine ⟨((collectOutput_ok env client c bundle hco).2 i pod _ _ hpod hf hlen).2,
      (collectOutput_recorded env client c bundle hco).2 i pod _ _ hpod hf hlen, ?_⟩
    intro j pod' hj
    rcases copyLoop_entries env client c _ 0 out0 bundle j pod' hloop hj with
      ⟨_, hc⟩ | ⟨_, hc⟩
    · exact Or.inl hc
    · exact Or.inr hc

/-- An instance of C7 (amended): the run without configuration at the start of `Copy`, and
the run with `web` and `db` where the configuration is lost in the fetch for `web`: the
fetch returns the error map, `Copy` prints a bundle, and the bundle holds the encoding of
that map under the error key of `web`. -/
theorem GetConfig_failure_witness :
    Copy envNoConfig hostsRequest true = CopyResult.failed "could not locate a kubeconfig"
    ∧ copyFiles envConfigLost 0 exampleClient web hostsRequest
        = Run.value (GoMap.empty,
            connectionPayload "invalid configuration: no configuration has been provided")
    ∧ (∃ bundle printed, Copy envConfigLost hostsRequest false
        = CopyResult.done bundle printed)
    ∧ ∃ bytes,
        envConfigLost.marshalNonNil
            (connectionPayload "invalid configuration: no configuration has been provided")
          = Except.ok bytes
        ∧ bundleConfigLost.Errors.get? (errorsKey web hostsRequest) = some bytes := by
  have hnS : ¬ serializationFails envConfigLost exampleClient hostsRequest := by
    rintro (⟨_, e, he⟩ | ⟨j, pod, errs, e, _, _, _, he⟩ | ⟨out, e, _, he⟩)
    · simp [envConfigLost, exampleEnv] at he
    · simp [envConfigLost, exampleEnv] at he
    · simp [envConfigLost, exampleEnv] at he
  obtain ⟨_, hcompletes, hbundle⟩ :=
    (GetConfig_failure envConfigLost hostsRequest).2.2 false exampleConfig exampleClient
      0 web "invalid configuration: no configuration has been provided"
      (by decide) (by decide) (by decide) (by decide)
  refine ⟨(GetConfig_failure envNoConfig hostsRequest).1 true "could not locate a kubeconfig"
      (by decide),
    (GetConfig_failure envConfigLost hostsRequest).2.1 0 exampleClient web
      "invalid configuration: no configuration has been provided" (by decide),
    hcompletes (by decide) hnS, ?_⟩
  refine (hbundle bundleConfigLost (renderOutput bundleConfigLost ++ "\n")
    (by decide)).2.1 ?_
  intro j pod' files' errs' hlt hj hk _
  match j, hlt, hj with
  | 1, _, hj =>
    have hp : pod' = db := by
      have : some db = some pod' := hj
      exact (Option.some.inj this).symm
    subst hp
    exact absurd hk (by decide)
  | j + 2, _, hj => exact absurd hj (by simp [envConfigLost, exampleEnv])

end collect
